import Mathlib

/-!
# fastsizer: image type, size and orientation from the leading bytes of a stream

A shallow embedding of `lib/image/fastsizer` (`fastimage.go`, `jpeg.go`, `bmp.go`).

An `io.Reader` is modelled as the finite list of bytes it still has to deliver; a read
fails exactly when the list runs out.  Every Go function that returns `(ImageInfo, error)`
returns a pair here, the error being `none` for Go's `nil`.
-/

namespace fastsizer

/-! ## Data model (`fastimage.go`) -/

/-- One byte of the stream. -/
abbrev Byte := Fin 256

/-- Go's `uint32(x)` conversion of a non-negative integer. -/
def uint32 (x : Nat) : Nat := x % 2 ^ 32

/-- Record `ImageSize`; both fields are `uint32` in the source. -/
structure ImageSize where
  Width : Nat
  Height : Nat
deriving DecidableEq, Repr

/-- Modelled from the spec: the declaration of `ImageType` is not among the sources; the
spec gives the closed enumeration BMP, GIF, JPEG, PNG, TIFF, WEBP, Unknown. -/
inductive ImageType where
  | BMP | GIF | JPEG | PNG | TIFF | WEBP | Unknown
deriving DecidableEq, Repr

/-- Modelled from the spec: the declaration of `MirrorDirection` is not among the sources;
the spec gives the enumeration None, Horizontal, Vertical with None as the default. -/
inductive MirrorDirection where
  | MirrorNone | MirrorHorizontal | MirrorVertical
deriving DecidableEq, Repr

/-- Modelled from the spec: the value of an `ImageType` field that was never assigned
(Go's zero value); the spec calls the unset result Unknown. -/
def ImageType.zero : ImageType := ImageType.Unknown

/-- The value of a `MirrorDirection` field that was never assigned. -/
def MirrorDirection.zero : MirrorDirection := MirrorDirection.MirrorNone

/-- Record `ImageInfo` (field `Type` of the source is `Typ` here). -/
structure ImageInfo where
  Size : ImageSize
  Typ : ImageType
  Rotation : Int
  Mirror : MirrorDirection
deriving DecidableEq, Repr

/-- The declaration `var re ImageInfo`: every field at its zero value. -/
def ImageInfo.zero : ImageInfo :=
  { Size := { Width := 0, Height := 0 }, Typ := ImageType.zero, Rotation := 0,
    Mirror := MirrorDirection.zero }

/-- The errors the package can return, one constructor per distinct error value. -/
inductive Err where
  /-- `io.EOF` -/
  | EOF
  /-- `io.ErrUnexpectedEOF` -/
  | ErrUnexpectedEOF
  /-- `errors.New("end of image")` -/
  | endOfImage
  /-- `errors.New("short segment length")` -/
  | shortSegmentLength
  /-- `errors.New("only 8-bit precision is supported")` -/
  | onlyEightBit
  /-- `errors.New("reached sos marker")` -/
  | reachedSos
  /-- `errNotExif` -/
  | errNotExif
  /-- `errors.New("invalid byte order")` -/
  | invalidByteOrder
  /-- `errors.New("invalid EXIF offset")` -/
  | invalidExifOffset
  /-- `errors.New("invalid orientation tag")` -/
  | invalidOrientationTag
  /-- `errors.New("unknown image type")` -/
  | unknownImageType
  /-- `errors.New("not implemented")` -/
  | notImplemented
  /-- `fmt.Errorf("Unknown image type (%v)", tb)` -/
  | UnknownImageTypeTb (b0 b1 : Byte)
deriving DecidableEq, Repr

/-- What a Go function of type `(ImageInfo, error)` returns. -/
abbrev Result := ImageInfo × Option Err

/-! ## The readers of the standard library, on a finite stream -/

/-- `bufio.Reader.ReadBytes(delim)`: consumes up to and including the first `delim`;
`none` (`io.EOF`) when the stream ends first.  Returns the rest of the stream. -/
def ReadBytes (delim : Byte) : List Byte → Option (List Byte)
  | [] => none
  | b :: s => if b = delim then some s else ReadBytes delim s

/-- `bufio.Reader.ReadByte`: `none` (`io.EOF`) on an empty stream. -/
def ReadByte : List Byte → Option (Byte × List Byte)
  | [] => none
  | b :: s => some (b, s)

/-- `io.ReadFull(r, buf)` with `len(buf) = n`: the `n` bytes and the rest of the stream;
`io.EOF` when nothing could be read, `io.ErrUnexpectedEOF` when fewer than `n`. -/
def ReadFull (n : Nat) (s : List Byte) : Except Err (List Byte × List Byte) :=
  if n ≤ s.length then Except.ok (s.take n, s.drop n)
  else if s.length = 0 then Except.error Err.EOF
  else Except.error Err.ErrUnexpectedEOF

/-- `bufio.Reader.Discard(n)`: `io.EOF` when fewer than `n` bytes are left. -/
def Discard (n : Nat) (s : List Byte) : Except Err (List Byte) :=
  if n ≤ s.length then Except.ok (s.drop n) else Except.error Err.EOF

/-- `io.CopyN(ioutil.Discard, r, n)`: `io.EOF` when fewer than `n` bytes are left. -/
def CopyN (s : List Byte) (n : Nat) : Except Err (List Byte) :=
  if n ≤ s.length then Except.ok (s.drop n) else Except.error Err.EOF

/-- `binary.ByteOrder`, as used by `readExif`. -/
inductive ByteOrder where
  | BigEndian | LittleEndian
deriving DecidableEq, Repr

/-- `byteOrder.Uint16` of two bytes. -/
def ByteOrder.Uint16 (o : ByteOrder) (b0 b1 : Byte) : Nat :=
  match o with
  | ByteOrder.BigEndian => b0.val * 256 + b1.val
  | ByteOrder.LittleEndian => b0.val + b1.val * 256

/-- `byteOrder.Uint32` of four bytes. -/
def ByteOrder.Uint32 (o : ByteOrder) (b0 b1 b2 b3 : Byte) : Nat :=
  match o with
  | ByteOrder.BigEndian => b0.val * 16777216 + b1.val * 65536 + b2.val * 256 + b3.val
  | ByteOrder.LittleEndian => b0.val + b1.val * 256 + b2.val * 65536 + b3.val * 16777216

/-- `binary.Read(r, order, &x)` for `x uint16`: `io.ReadFull` of two bytes, then decode. -/
def binaryReadUint16 (o : ByteOrder) (r : List Byte) : Except Err (Nat × List Byte) :=
  match ReadFull 2 r with
  | Except.error e => Except.error e
  | Except.ok (bs, r1) => Except.ok (o.Uint16 (bs.getD 0 0) (bs.getD 1 0), r1)

/-- `binary.Read(r, order, &x)` for `x uint32`: `io.ReadFull` of four bytes, then decode. -/
def binaryReadUint32 (o : ByteOrder) (r : List Byte) : Except Err (Nat × List Byte) :=
  match ReadFull 4 r with
  | Except.error e => Except.error e
  | Except.ok (bs, r1) =>
    Except.ok (o.Uint32 (bs.getD 0 0) (bs.getD 1 0) (bs.getD 2 0) (bs.getD 3 0), r1)

/-! ## `jpeg.go` -/

def sof0Marker : Byte := 0xc0
def sof1Marker : Byte := 0xc1
def sof2Marker : Byte := 0xc2
def rst0Marker : Byte := 0xd0
def rst7Marker : Byte := 0xd7
def soiMarker : Byte := 0xd8
def eoiMarker : Byte := 0xd9
def sosMarker : Byte := 0xda
def app1Marker : Byte := 0xe1

def exifHeader : Nat := 0x45786966
def byteOrderBE : Nat := 0x4d4d
def byteOrderLE : Nat := 0x4949
def orientationTag : Nat := 0x0112

/-- The state of a `jpegHandler`: the unread stream behind `h.r` and the record `h.re`. -/
structure jpegHandler where
  r : List Byte
  re : ImageInfo
deriving DecidableEq, Repr

/-- The `switch val` at the end of `readExif`, with its two `fallthrough`s
(5 falls into 8, 7 falls into 6). -/
def orientationSwitch (val : Nat) (re : ImageInfo) : ImageInfo :=
  match val with
  | 2 => { re with Mirror := MirrorDirection.MirrorHorizontal }
  | 3 => { re with Rotation := 180 }
  | 4 => { re with Mirror := MirrorDirection.MirrorVertical }
  | 5 => { re with Mirror := MirrorDirection.MirrorHorizontal, Rotation := 270 }
  | 8 => { re with Rotation := 270 }
  | 7 => { re with Mirror := MirrorDirection.MirrorHorizontal, Rotation := 90 }
  | 6 => { re with Rotation := 90 }
  | _ => re

/-- The loop `for i := 0; i < int(numTags); i++` of `readExif`; the first argument is the
number of iterations still to run, `r` the `bytes.Buffer` over the payload. -/
def findOrientation (byteOrder : ByteOrder) : Nat → List Byte → ImageInfo → Result
  | 0, _, re => (re, none)
  | i + 1, r, re =>
    match binaryReadUint16 byteOrder r with
    | Except.error e => (re, some e)
    | Except.ok (tag, r1) =>
      if tag ≠ orientationTag then
        match CopyN r1 10 with
        | Except.error e => (re, some e)
        | Except.ok r2 => findOrientation byteOrder i r2 re
      else
        match CopyN r1 6 with
        | Except.error e => (re, some e)
        | Except.ok r2 =>
          match binaryReadUint16 byteOrder r2 with
          | Except.error e => (re, some e)
          | Except.ok (val, _) =>
            if val < 1 ∨ val > 8 then (re, some Err.invalidOrientationTag)
            else (orientationSwitch val re, none)

/-- The body of `readExif` after the payload has been read into `buf`: it works on a
`bytes.Buffer` over `buf` and on the record `h.re`. -/
def readExifBuffer (buf : List Byte) (re : ImageInfo) : Result :=
  match binaryReadUint32 ByteOrder.BigEndian buf with
  | Except.error e => (re, some e)
  | Except.ok (header, r1) =>
    if header ≠ exifHeader then (re, some Err.errNotExif) else
    match CopyN r1 2 with
    | Except.error e => (re, some e)
    | Except.ok r2 =>
      match binaryReadUint16 ByteOrder.BigEndian r2 with
      | Except.error e => (re, some e)
      | Except.ok (byteOrderTag, r3) =>
        match (if byteOrderTag = byteOrderBE then some ByteOrder.BigEndian
               else if byteOrderTag = byteOrderLE then some ByteOrder.LittleEndian
               else none) with
        | none => (re, some Err.invalidByteOrder)
        | some byteOrder =>
          match CopyN r3 2 with
          | Except.error e => (re, some e)
          | Except.ok r4 =>
            match binaryReadUint32 byteOrder r4 with
            | Except.error e => (re, some e)
            | Except.ok (offset, r5) =>
              if offset < 8 then (re, some Err.invalidExifOffset) else
              match CopyN r5 (offset - 8) with
              | Except.error e => (re, some e)
              | Except.ok r6 =>
                match binaryReadUint16 byteOrder r6 with
                | Except.error e => (re, some e)
                | Except.ok (numTags, r7) => findOrientation byteOrder numTags r7 re

/-- Method `jpegHandler.readExif(n)`: reads `n` bytes from `h.r`, then looks for the
orientation tag in them.  Returns the handler afterwards and the error. -/
def jpegHandler.readExif (h : jpegHandler) (n : Nat) : jpegHandler × Option Err :=
  match ReadFull n h.r with
  | Except.error e => ({ h with r := [] }, some e)
  | Except.ok (buf, r1) =>
    let res := readExifBuffer buf h.re
    ({ r := r1, re := res.1 }, res.2)

/-- The loop `for marker == 0xff` of `Info`: reads on while the marker is `0xff`;
`none` (`io.EOF`) when the stream ends inside the run. -/
def skipPadding : Byte → List Byte → Option (Byte × List Byte)
  | marker, [] => if marker = 0xff then none else some (marker, [])
  | marker, b :: s => if marker = 0xff then skipPadding b s else some (marker, b :: s)

/-- The second half of an iteration of the outer `for` loop of `Info`, from the test
`marker == eoiMarker` on: `h.r` is the stream after the marker code, `next` stands for
the following iterations (`continue`, or falling off the end of the `switch`). -/
def infoSegment (next : jpegHandler → Option Result) (h : jpegHandler) (marker : Byte) :
    Option Result :=
  if marker = eoiMarker then some (h.re, some Err.endOfImage)
  else if rst0Marker ≤ marker ∧ marker ≤ rst7Marker then next h
  else
  match ReadFull 2 h.r with
  | Except.error e => some (h.re, some e)
  | Except.ok (buf, r4) =>
    let length : Int := (((buf.getD 0 0).val <<< 8 + (buf.getD 1 0).val : Nat) : Int) - 2
    if length < 0 then some (h.re, some Err.shortSegmentLength) else
    if marker = sof0Marker ∨ marker = sof1Marker ∨ marker = sof2Marker then
      match ReadFull 5 r4 with
      | Except.error e => some (h.re, some e)
      | Except.ok (buf5, _) =>
        if buf5.getD 0 0 ≠ 8 then some (h.re, some Err.onlyEightBit)
        else
          some ({ h.re with
                  Size := { Width := uint32 ((buf5.getD 3 0).val <<< 8 + (buf5.getD 4 0).val),
                            Height := uint32 ((buf5.getD 1 0).val <<< 8 + (buf5.getD 2 0).val) } },
                none)
    else if marker = app1Marker then
      match jpegHandler.readExif { h with r := r4 } length.toNat with
      | (h1, some _) => some (h1.re, none)
      | (h1, none) => next h1
    else if marker = sosMarker then some (h.re, some Err.reachedSos)
    else
      match Discard length.toNat r4 with
      | Except.error e => some (h.re, some e)
      | Except.ok r5 => next { h with r := r5 }

/-- One iteration of the outer `for` loop of `Info`: finds the next marker code, then
goes on with `infoSegment`. -/
def infoStep (next : jpegHandler → Option Result) (h : jpegHandler) : Option Result :=
  match ReadBytes 0xff h.r with
  | none => some (h.re, some Err.EOF)
  | some r1 =>
    match ReadByte r1 with
    | none => some (h.re, some Err.EOF)
    | some (marker0, r2) =>
      if marker0 = 0 then next { h with r := r2 } else
      match skipPadding marker0 r2 with
      | none => some (h.re, some Err.EOF)
      | some (marker, r3) => infoSegment next { h with r := r3 } marker

/-- The outer `for` loop of `Info`, run for at most `fuel` iterations; `none` when the
fuel is used up before the loop returns. -/
def infoLoop : Nat → jpegHandler → Option Result
  | 0, _ => none
  | fuel + 1, h => infoStep (infoLoop fuel) h

/-- The loop of `Info` started on handler state `h`, with the fuel its stream calls for. -/
def jpegHandler.loop (h : jpegHandler) : Option Result :=
  infoLoop (h.r.length + 1) h

/-- Method `jpegHandler.Info(r)`: sets `h.r` and `h.re.Type`, then runs the loop.  Every
iteration that does not return consumes a byte, so `r.length + 1` iterations are enough
(`infoLoop_isSome`). -/
def jpegHandler.Info (h : jpegHandler) (r : List Byte) : Option Result :=
  infoLoop (r.length + 1) { r := r, re := { h.re with Typ := ImageType.JPEG } }

/-! ## `bmp.go` -/

/-- Method `bmpHandler.Info(r)`; `readUint32` is not among the sources and is a parameter. -/
def bmpHandler.Info (readUint32 : List Byte → Nat) (r : List Byte) : Result :=
  match ReadFull (16 + 8) r with
  | Except.error e => (ImageInfo.zero, some e)
  | Except.ok (buf, _) =>
    ({ ImageInfo.zero with
       Size := { Width := uint32 (readUint32 (buf.take 4)),
                 Height := uint32 (readUint32 ((buf.drop 4).take 4)) } }, none)

/-! ## `fastimage.go`: the package-level `Detect` -/

/-- The values of interface `typeHandler` that `detectTypeHandler` can return. -/
inductive typeHandler where
  | jpeg (h : jpegHandler)
deriving DecidableEq, Repr

/-- `handler.Info(r)`. -/
def typeHandler.Info (t : typeHandler) (r : List Byte) : Option Result :=
  match t with
  | typeHandler.jpeg h => h.Info r

/-- `detectTypeHandler(r)`: the handler and the stream after the two bytes read. -/
def detectTypeHandler (r : List Byte) : Except Err (typeHandler × List Byte) :=
  match ReadFull 2 r with
  | Except.error e => Except.error e
  | Except.ok (buf, r1) =>
    let b0 := buf.getD 0 0
    let b1 := buf.getD 1 0
    if b0 = 0x42 ∧ b1 = 0x4d then Except.error Err.notImplemented
    else if b0 = 0x47 ∧ b1 = 0x49 then Except.error Err.notImplemented
    else if b0 = 0xff ∧ b1 = 0xd8 then
      Except.ok (typeHandler.jpeg { r := [], re := ImageInfo.zero }, r1)
    else if b0 = 0x89 ∧ b1 = 0x50 then Except.error Err.notImplemented
    else if (b0 = 0x49 ∧ b1 = 0x49) ∨ (b0 = 0x4d ∧ b1 = 0x4d) then
      Except.error Err.notImplemented
    else if b0 = 0x52 ∧ b1 = 0x49 then Except.error Err.notImplemented
    else Except.error Err.unknownImageType

/-- Package-level `Detect(r)`. -/
def Detect (r : List Byte) : Option Result :=
  match detectTypeHandler r with
  | Except.error e => some (ImageInfo.zero, some e)
  | Except.ok (handler, r1) => handler.Info r1

/-! ## The shape of a JPEG stream, for stating the properties -/

/-- A segment as it lies in the stream: `0xFF`, the marker code, the two bytes of the
big-endian length, and the payload. -/
structure Segment where
  marker : Byte
  lenHi : Byte
  lenLo : Byte
  payload : List Byte
deriving DecidableEq, Repr

/-- The big-endian length a segment declares (it counts its own two bytes). -/
def Segment.length (g : Segment) : Nat := 256 * g.lenHi.val + g.lenLo.val

/-- The bytes of a segment. -/
def Segment.bytes (g : Segment) : List Byte :=
  0xff :: g.marker :: g.lenHi :: g.lenLo :: g.payload

/-- A complete segment: the declared length is at least 2 and exactly that many bytes,
less the two length bytes, follow. -/
def Segment.complete (g : Segment) : Prop :=
  2 ≤ g.length ∧ g.payload.length = g.length - 2

/-- The marker codes whose segments the scanner passes over without looking inside:
none of `0x00`, `0xFF`, `0xC0`-`0xC2`, `0xD0`-`0xDA`, `0xE1`. -/
def skippedMarker (m : Byte) : Prop :=
  m ≠ 0x00 ∧ m ≠ 0xff ∧ ¬ (0xc0 ≤ m ∧ m ≤ 0xc2) ∧ ¬ (0xd0 ≤ m ∧ m ≤ 0xda) ∧ m ≠ 0xe1

/-- A complete segment with a passed-over marker code. -/
def Segment.skipped (g : Segment) : Prop :=
  skippedMarker g.marker ∧ g.complete

instance (g : Segment) : Decidable g.complete := by
  unfold Segment.complete; infer_instance

instance (m : Byte) : Decidable (skippedMarker m) := by
  unfold skippedMarker; infer_instance

instance (g : Segment) : Decidable g.skipped := by
  unfold Segment.skipped; infer_instance

/-- The bytes of a sequence of segments, one after the other. -/
def segmentsBytes : List Segment → List Byte
  | [] => []
  | g :: gs => g.bytes ++ segmentsBytes gs

/-- The marker codes of a start-of-frame segment the scanner accepts. -/
def sofMarker (m : Byte) : Prop := m = 0xc0 ∨ m = 0xc1 ∨ m = 0xc2

instance (m : Byte) : Decidable (sofMarker m) := by
  unfold sofMarker; infer_instance

/-! ## The shape of an EXIF payload, for stating the properties -/

/-- The byte-order mark of an EXIF payload: `II` for little-endian, `MM` for big-endian. -/
def ByteOrder.mark (o : ByteOrder) : List Byte :=
  match o with
  | ByteOrder.BigEndian => [0x4d, 0x4d]
  | ByteOrder.LittleEndian => [0x49, 0x49]

/-- A 12-byte directory entry as it lies in the payload: the two bytes of the tag id and
the ten bytes after them. -/
structure DirEntry where
  id0 : Byte
  id1 : Byte
  body : List Byte
deriving DecidableEq, Repr

/-- The bytes of a directory entry. -/
def DirEntry.bytes (e : DirEntry) : List Byte := e.id0 :: e.id1 :: e.body

/-- A complete entry whose tag id, in byte order `o`, is not the orientation tag. -/
def DirEntry.other (o : ByteOrder) (e : DirEntry) : Prop :=
  o.Uint16 e.id0 e.id1 ≠ 0x0112 ∧ e.body.length = 10

instance (o : ByteOrder) (e : DirEntry) : Decidable (e.other o) := by
  unfold DirEntry.other; infer_instance

/-- The bytes of a sequence of directory entries. -/
def entriesBytes : List DirEntry → List Byte
  | [] => []
  | e :: es => e.bytes ++ entriesBytes es

/-- An APP1 payload that carries an orientation entry: `Exif`, two bytes, the byte-order
mark, two bytes, the four bytes of the directory offset, filler up to the directory, the
two bytes of the tag count, some entries, then the entry with the orientation tag (its two
id bytes, six bytes, the two bytes of the value) and whatever follows in the payload. -/
structure OrientedExif where
  order : ByteOrder
  pad0 : Byte
  pad1 : Byte
  magic0 : Byte
  magic1 : Byte
  off0 : Byte
  off1 : Byte
  off2 : Byte
  off3 : Byte
  filler : List Byte
  cnt0 : Byte
  cnt1 : Byte
  entries : List DirEntry
  tag0 : Byte
  tag1 : Byte
  six : List Byte
  val0 : Byte
  val1 : Byte
  tail : List Byte
deriving DecidableEq, Repr

/-- The bytes of the payload. -/
def OrientedExif.bytes (p : OrientedExif) : List Byte :=
  [0x45, 0x78, 0x69, 0x66] ++ [p.pad0, p.pad1] ++ p.order.mark ++ [p.magic0, p.magic1] ++
    [p.off0, p.off1, p.off2, p.off3] ++ p.filler ++ [p.cnt0, p.cnt1] ++
    entriesBytes p.entries ++ [p.tag0, p.tag1] ++ p.six ++ [p.val0, p.val1] ++ p.tail

/-- The directory offset, read in the declared byte order. -/
def OrientedExif.offset (p : OrientedExif) : Nat := p.order.Uint32 p.off0 p.off1 p.off2 p.off3

/-- The tag count, read in the declared byte order. -/
def OrientedExif.count (p : OrientedExif) : Nat := p.order.Uint16 p.cnt0 p.cnt1

/-- The orientation value, read in the declared byte order. -/
def OrientedExif.value (p : OrientedExif) : Nat := p.order.Uint16 p.val0 p.val1

/-- The payload is laid out as its fields say: the offset is at least 8 and the filler
reaches the directory, the tag count exceeds the number of entries before the orientation
entry, none of which has the orientation tag, and the orientation entry has tag `0x0112`
followed by six bytes. -/
def OrientedExif.wellFormed (p : OrientedExif) : Prop :=
  8 ≤ p.offset ∧ p.filler.length = p.offset - 8 ∧ p.entries.length < p.count ∧
  (∀ e ∈ p.entries, e.other p.order) ∧ p.order.Uint16 p.tag0 p.tag1 = 0x0112 ∧
  p.six.length = 6

instance (p : OrientedExif) : Decidable p.wellFormed := by
  unfold OrientedExif.wellFormed; infer_instance

/-- The table of the specification (section 4.5): the rotation in degrees and the mirror
direction for each EXIF orientation code 1..8. -/
def orientationTable : Nat → Int × MirrorDirection
  | 1 => (0, MirrorDirection.MirrorNone)
  | 2 => (0, MirrorDirection.MirrorHorizontal)
  | 3 => (180, MirrorDirection.MirrorNone)
  | 4 => (0, MirrorDirection.MirrorVertical)
  | 5 => (270, MirrorDirection.MirrorHorizontal)
  | 6 => (90, MirrorDirection.MirrorNone)
  | 7 => (90, MirrorDirection.MirrorHorizontal)
  | 8 => (270, MirrorDirection.MirrorNone)
  | _ => (0, MirrorDirection.MirrorNone)

/-- A little-endian payload: directory at offset 10, two entries declared, the first with
tag `0x010F`, the second the orientation entry with value 6. -/
def sampleExif : OrientedExif :=
  { order := ByteOrder.LittleEndian, pad0 := 0x00, pad1 := 0x00, magic0 := 0x2a, magic1 := 0x00,
    off0 := 0x0a, off1 := 0x00, off2 := 0x00, off3 := 0x00, filler := [0x00, 0x00],
    cnt0 := 0x02, cnt1 := 0x00,
    entries := [DirEntry.mk 0x0f 0x01 [0x02, 0x00, 0x01, 0x00, 0x00, 0x00, 0x00, 0x00, 0x00, 0x00]],
    tag0 := 0x12, tag1 := 0x01, six := [0x03, 0x00, 0x01, 0x00, 0x00, 0x00],
    val0 := 0x06, val1 := 0x00, tail := [0x00, 0x00] }

/-! ## `fastimage.go`: the `FastImage` client -/

/-- Modelled from the spec: `xbuffer.ReadAt(tb, 0)`; type `xbuffer` is not among the
sources.  The spec (section 4.1): the buffer is filled from stream offset 0, a short read
is an error and the end of data of the underlying stream is passed on unchanged. -/
def xbufferReadAt0 (n : Nat) (s : List Byte) : Except Err (List Byte) :=
  if n ≤ s.length then Except.ok (s.take n) else Except.error Err.EOF

/-- The methods of `decoder` that `detectInternal` calls; none of them is among the
sources, so they are parameters.  Each gets the decoder's `minimal` flag and the stream
behind the decoder's reader. -/
structure decoder where
  getBMPImageSize : Bool → List Byte → ImageSize × Option Err
  getGIFImageSize : Bool → List Byte → ImageSize × Option Err
  getPNGImageSize : Bool → List Byte → ImageSize × Option Err
  getTIFFImageSize : Bool → List Byte → ImageSize × Option Err
  getWEBPImageSize : Bool → List Byte → ImageSize × Option Err

/-- The nested `switch this.tb[0]` / `switch this.tb[1]` of `detectInternal`: the record
`info`, the error `e` and the flag `ok` after it. -/
def detectSwitch (d : decoder) (minimal : Bool) (reader : List Byte) (tb0 tb1 : Byte) :
    ImageInfo × Option Err × Bool :=
  if tb0 = 0x42 then
    if tb1 = 0x4d then
      ({ ImageInfo.zero with Typ := ImageType.BMP, Size := (d.getBMPImageSize minimal reader).1 },
        (d.getBMPImageSize minimal reader).2, true)
    else (ImageInfo.zero, none, false)
  else if tb0 = 0x47 then
    if tb1 = 0x49 then
      ({ ImageInfo.zero with Typ := ImageType.GIF, Size := (d.getGIFImageSize minimal reader).1 },
        (d.getGIFImageSize minimal reader).2, true)
    else (ImageInfo.zero, none, false)
  else if tb0 = 0x89 then
    if tb1 = 0x50 then
      ({ ImageInfo.zero with Typ := ImageType.PNG, Size := (d.getPNGImageSize minimal reader).1 },
        (d.getPNGImageSize minimal reader).2, true)
    else (ImageInfo.zero, none, false)
  else if tb0 = 0x49 then
    if tb1 = 0x49 then
      ({ ImageInfo.zero with Typ := ImageType.TIFF, Size := (d.getTIFFImageSize minimal reader).1 },
        (d.getTIFFImageSize minimal reader).2, true)
    else (ImageInfo.zero, none, false)
  else if tb0 = 0x4d then
    if tb1 = 0x4d then
      ({ ImageInfo.zero with Typ := ImageType.TIFF, Size := (d.getTIFFImageSize minimal reader).1 },
        (d.getTIFFImageSize minimal reader).2, true)
    else (ImageInfo.zero, none, false)
  else if tb0 = 0x52 then
    if tb1 = 0x49 then
      ({ ImageInfo.zero with Typ := ImageType.WEBP, Size := (d.getWEBPImageSize minimal reader).1 },
        (d.getWEBPImageSize minimal reader).2, true)
    else (ImageInfo.zero, none, false)
  else (ImageInfo.zero, none, false)

/-- Method `FastImage.detectInternal(d, reader)`. -/
def FastImage.detectInternal (d : decoder) (minimal : Bool) (reader : List Byte) : Result :=
  match xbufferReadAt0 2 reader with
  | Except.error e => (ImageInfo.zero, some e)
  | Except.ok tb =>
    let out := detectSwitch d minimal reader (tb.getD 0 0) (tb.getD 1 0)
    if out.2.2 = false then (out.1, some (Err.UnknownImageTypeTb (tb.getD 0 0) (tb.getD 1 0)))
    else (out.1, out.2.1)

/-- Method `FastImage.Detect(reader)`: the decoder is built with `minimal: true`. -/
def FastImage.Detect (d : decoder) (reader : List Byte) : ImageType × ImageSize × Option Err :=
  let res := FastImage.detectInternal d true reader
  (res.1.Typ, res.1.Size, res.2)

/-- Method `FastImage.DetectInfo(reader)`. -/
def FastImage.DetectInfo (d : decoder) (reader : List Byte) : Result :=
  FastImage.detectInternal d false reader

/-! ## Inputs and readings for stating the properties of the dispatchers and of BMP -/

/-- Modelled from the spec: `readUint32` is not among the sources; the spec (section 4.3)
has BMP store its width and height as 32-bit little-endian values. -/
def readUint32LE (b : List Byte) : Nat :=
  (b.getD 0 0).val + (b.getD 1 0).val * 256 + (b.getD 2 0).val * 65536 +
    (b.getD 3 0).val * 16777216

/-- The 24 bytes that follow the magic `BM` in the header of a 640 x 480 bitmap with 24
bits per pixel: file size 921654, four reserved bytes, data offset 54, header size 40,
width 640, height 480. -/
def sampleBmpHeader : List Byte :=
  [0x36, 0x10, 0x0e, 0x00, 0x00, 0x00, 0x00, 0x00, 0x36, 0x00, 0x00, 0x00,
   0x28, 0x00, 0x00, 0x00, 0x80, 0x02, 0x00, 0x00, 0xe0, 0x01, 0x00, 0x00]

/-- The signature test of `detectTypeHandler` for each format: the condition of the branch
that the source comments with the format's name. -/
def signatureTest (t : ImageType) (b0 b1 : Byte) : Prop :=
  match t with
  | ImageType.BMP => b0 = 0x42 ∧ b1 = 0x4d
  | ImageType.GIF => b0 = 0x47 ∧ b1 = 0x49
  | ImageType.JPEG => b0 = 0xff ∧ b1 = 0xd8
  | ImageType.PNG => b0 = 0x89 ∧ b1 = 0x50
  | ImageType.TIFF => (b0 = 0x49 ∧ b1 = 0x49) ∨ (b0 = 0x4d ∧ b1 = 0x4d)
  | ImageType.WEBP => b0 = 0x52 ∧ b1 = 0x49
  | ImageType.Unknown => False

instance (t : ImageType) (b0 b1 : Byte) : Decidable (signatureTest t b0 b1) := by
  unfold signatureTest; cases t <;> infer_instance

/-- The formats whose signature test a 2-byte prefix passes. -/
def matchedFormats (b0 b1 : Byte) : List ImageType :=
  [ImageType.BMP, ImageType.GIF, ImageType.JPEG, ImageType.PNG, ImageType.TIFF,
    ImageType.WEBP].filter (fun t => decide (signatureTest t b0 b1))

/-- An APP1 payload whose directory has no orientation entry: `Exif`, two bytes, the
byte-order mark, two bytes, the four bytes of the directory offset, filler up to the
directory, the two bytes of the tag count, the entries, and whatever follows them. -/
structure PlainExif where
  order : ByteOrder
  pad0 : Byte
  pad1 : Byte
  magic0 : Byte
  magic1 : Byte
  off0 : Byte
  off1 : Byte
  off2 : Byte
  off3 : Byte
  filler : List Byte
  cnt0 : Byte
  cnt1 : Byte
  entries : List DirEntry
  tail : List Byte
deriving DecidableEq, Repr

/-- The bytes of the payload. -/
def PlainExif.bytes (p : PlainExif) : List Byte :=
  [0x45, 0x78, 0x69, 0x66] ++ [p.pad0, p.pad1] ++ p.order.mark ++ [p.magic0, p.magic1] ++
    [p.off0, p.off1, p.off2, p.off3] ++ p.filler ++ [p.cnt0, p.cnt1] ++
    entriesBytes p.entries ++ p.tail

/-- The directory offset, read in the declared byte order. -/
def PlainExif.offset (p : PlainExif) : Nat := p.order.Uint32 p.off0 p.off1 p.off2 p.off3

/-- The tag count, read in the declared byte order. -/
def PlainExif.count (p : PlainExif) : Nat := p.order.Uint16 p.cnt0 p.cnt1

/-- The payload is laid out as its fields say: the offset is at least 8 and the filler
reaches the directory, the directory is complete (the tag count is the number of entries)
and no entry has the orientation tag. -/
def PlainExif.wellFormed (p : PlainExif) : Prop :=
  8 ≤ p.offset ∧ p.filler.length = p.offset - 8 ∧ p.count = p.entries.length ∧
  (∀ e ∈ p.entries, e.other p.order)

instance (p : PlainExif) : Decidable p.wellFormed := by
  unfold PlainExif.wellFormed; infer_instance

/-- A big-endian payload: directory at offset 8 with two entries, tags `0x010F` and
`0x0110`, and four more bytes after the directory. -/
def samplePlainExif : PlainExif :=
  { order := ByteOrder.BigEndian, pad0 := 0x00, pad1 := 0x00, magic0 := 0x00, magic1 := 0x2a,
    off0 := 0x00, off1 := 0x00, off2 := 0x00, off3 := 0x08, filler := [],
    cnt0 := 0x00, cnt1 := 0x02,
    entries := [DirEntry.mk 0x01 0x0f [0x00, 0x02, 0x00, 0x00, 0x00, 0x01, 0x00, 0x00, 0x00, 0x00],
                DirEntry.mk 0x01 0x10 [0x00, 0x02, 0x00, 0x00, 0x00, 0x01, 0x00, 0x00, 0x00, 0x00]],
    tail := [0x00, 0x00, 0x00, 0x00] }

/-! ## Predicates for stating the frame of the EXIF reader -/

/-- What a step of the EXIF reader may do to the record: Type and Size stay, and either
the call returns nil or the whole record stays. -/
def exifFrame (re : ImageInfo) (res : Result) : Prop :=
  res.1.Typ = re.Typ ∧ res.1.Size = re.Size ∧ (res.2 = none ∨ res.1 = re)

/-! # Properties -/

theorem ReadBytes_length {d : Byte} {s r : List Byte} (h : ReadBytes d s = some r) :
    r.length < s.length := by
  induction s with
  | nil => simp [ReadBytes] at h
  | cons b s ih =>
    unfold ReadBytes at h
    split at h
    · cases h; simp
    · have := ih h; simp; omega

theorem skipPadding_length {m m1 : Byte} {s r : List Byte}
    (h : skipPadding m s = some (m1, r)) : r.length ≤ s.length := by
  induction s generalizing m with
  | nil =>
    unfold skipPadding at h
    split at h
    · cases h
    · cases h; simp
  | cons b s ih =>
    unfold skipPadding at h
    split at h
    · have := ih h; simp; omega
    · cases h; simp

theorem ReadFull_ok {n : Nat} {s buf r : List Byte} (h : ReadFull n s = Except.ok (buf, r)) :
    n ≤ s.length ∧ buf = s.take n ∧ r = s.drop n := by
  unfold ReadFull at h
  split at h
  · cases h; exact ⟨by assumption, rfl, rfl⟩
  · split at h <;> cases h

theorem Discard_ok {n : Nat} {s r : List Byte} (h : Discard n s = Except.ok r) :
    n ≤ s.length ∧ r = s.drop n := by
  unfold Discard at h
  split at h
  · cases h; exact ⟨by assumption, rfl⟩
  · cases h

theorem readExif_length (h : jpegHandler) (n : Nat) : (h.readExif n).1.r.length ≤ h.r.length := by
  unfold jpegHandler.readExif
  split
  · simp
  · rename_i buf r1 hr
    have := ReadFull_ok hr
    simp [this.2.2]

/-- The second half of an iteration either returns a result of its own or hands a stream
that is no longer to the next iteration. -/
theorem infoSegment_cases (h : jpegHandler) (marker : Byte) :
    (∃ res, ∀ next, infoSegment next h marker = some res) ∨
    (∃ h1 : jpegHandler, h1.r.length ≤ h.r.length ∧
      ∀ next, infoSegment next h marker = next h1) := by
  unfold infoSegment
  split
  · exact Or.inl ⟨_, fun _ => rfl⟩
  · split
    · exact Or.inr ⟨_, Nat.le_refl _, fun _ => rfl⟩
    · split
      · exact Or.inl ⟨_, fun _ => rfl⟩
      · rename_i buf r4 h4
        have l4 := ReadFull_ok h4
        have l4a : r4.length ≤ h.r.length := by rw [l4.2.2]; simp
        simp only []
        split
        · exact Or.inl ⟨_, fun _ => rfl⟩
        · split
          · split
            · exact Or.inl ⟨_, fun _ => rfl⟩
            · split
              · exact Or.inl ⟨_, fun _ => rfl⟩
              · exact Or.inl ⟨_, fun _ => rfl⟩
          · split
            · split
              · exact Or.inl ⟨_, fun _ => rfl⟩
              · rename_i h5 heq
                have l5 := readExif_length { h with r := r4 }
                  (((((buf.getD 0 0).val <<< 8 + (buf.getD 1 0).val : Nat) : Int) - 2).toNat)
                rw [heq] at l5
                exact Or.inr ⟨_, by simp at l5; omega, fun _ => rfl⟩
            · split
              · exact Or.inl ⟨_, fun _ => rfl⟩
              · split
                · exact Or.inl ⟨_, fun _ => rfl⟩
                · rename_i r5 h5
                  have l5 := Discard_ok h5
                  exact Or.inr ⟨_, by simp [l5.2]; omega, fun _ => rfl⟩

/-- One iteration either returns a result of its own or hands a strictly shorter stream to
the next iteration. -/
theorem infoStep_cases (h : jpegHandler) :
    (∃ res, ∀ next, infoStep next h = some res) ∨
    (∃ h1 : jpegHandler, h1.r.length < h.r.length ∧ ∀ next, infoStep next h = next h1) := by
  unfold infoStep
  split
  · exact Or.inl ⟨_, fun _ => rfl⟩
  · rename_i r1 h1
    have l1 := ReadBytes_length h1
    split
    · exact Or.inl ⟨_, fun _ => rfl⟩
    · rename_i marker0 r2 h2
      have l2 : r2.length < r1.length := by
        cases r1 with
        | nil => simp [ReadByte] at h2
        | cons b t => simp [ReadByte] at h2; rw [← h2.2]; simp
      split
      · exact Or.inr ⟨_, by simp; omega, fun _ => rfl⟩
      · split
        · exact Or.inl ⟨_, fun _ => rfl⟩
        · rename_i marker r3 h3
          have l3 := skipPadding_length h3
          rcases infoSegment_cases { h with r := r3 } marker with ⟨res, hres⟩ | ⟨h5, hle, hnext⟩
          · exact Or.inl ⟨res, hres⟩
          · exact Or.inr ⟨h5, by simp at hle; omega, hnext⟩

theorem infoLoop_fuel (f1 f2 : Nat) (h : jpegHandler) (h1 : h.r.length < f1)
    (h2 : h.r.length < f2) : infoLoop f1 h = infoLoop f2 h := by
  induction f1 generalizing f2 h with
  | zero => omega
  | succ f1 ih =>
    cases f2 with
    | zero => omega
    | succ f2 =>
      show infoStep (infoLoop f1) h = infoStep (infoLoop f2) h
      rcases infoStep_cases h with ⟨res, hres⟩ | ⟨h1, hlt, hnext⟩
      · rw [hres, hres]
      · rw [hnext, hnext]
        exact ih f2 h1 (by omega) (by omega)

theorem infoLoop_isSome (f : Nat) (h : jpegHandler) (hf : h.r.length < f) :
    (infoLoop f h).isSome = true := by
  induction f generalizing h with
  | zero => omega
  | succ f ih =>
    show (infoStep (infoLoop f) h).isSome = true
    rcases infoStep_cases h with ⟨res, hres⟩ | ⟨h1, hlt, hnext⟩
    · rw [hres]; rfl
    · rw [hnext]; exact ih h1 (by omega)

/-- The loop satisfies the equation of the source: one iteration, then the loop again. -/
theorem loop_eq (h : jpegHandler) : h.loop = infoStep jpegHandler.loop h := by
  show infoStep (infoLoop h.r.length) h = infoStep jpegHandler.loop h
  rcases infoStep_cases h with ⟨res, hres⟩ | ⟨h1, hlt, hnext⟩
  · rw [hres, hres]
  · rw [hnext, hnext]
    exact infoLoop_fuel _ _ h1 hlt (by omega)

theorem Info_eq_loop (h : jpegHandler) (r : List Byte) :
    h.Info r = jpegHandler.loop { r := r, re := { h.re with Typ := ImageType.JPEG } } := rfl

set_option maxRecDepth 100000 in
theorem skippedMarker_facts : ∀ m : Byte, skippedMarker m →
    m ≠ 0 ∧ m ≠ 0xff ∧ m ≠ eoiMarker ∧ ¬ (rst0Marker ≤ m ∧ m ≤ rst7Marker) ∧
    ¬ (m = sof0Marker ∨ m = sof1Marker ∨ m = sof2Marker) ∧ m ≠ app1Marker ∧ m ≠ sosMarker := by
  decide

set_option maxRecDepth 100000 in
theorem sofMarker_facts : ∀ m : Byte, sofMarker m →
    m ≠ 0 ∧ m ≠ 0xff ∧ m ≠ eoiMarker ∧ ¬ (rst0Marker ≤ m ∧ m ≤ rst7Marker) ∧
    (m = sof0Marker ∨ m = sof1Marker ∨ m = sof2Marker) := by
  decide

theorem skipPadding_of_ne {m : Byte} (hm : m ≠ 0xff) (s : List Byte) :
    skipPadding m s = some (m, s) := by
  cases s <;> simp [skipPadding, hm]

theorem shift8 (a b : Nat) : a <<< 8 + b = 256 * a + b := by
  rw [Nat.shiftLeft_eq]; omega

/-- Reading `n` bytes off a stream that starts with `n` known bytes. -/
theorem ReadFull_append (buf rest : List Byte) :
    ReadFull buf.length (buf ++ rest) = Except.ok (buf, rest) := by
  simp [ReadFull]

/-- A marker code right at the head of the stream (`0xFF`, then a byte that is neither
`0x00` nor `0xFF`) is found by the first half of the iteration. -/
theorem infoStep_marker (next : jpegHandler → Option Result) (m : Byte) (h0 : m ≠ 0)
    (hff : m ≠ 0xff) (s : List Byte) (re : ImageInfo) :
    infoStep next { r := 0xff :: m :: s, re := re } = infoSegment next { r := s, re := re } m := by
  simp [infoStep, ReadBytes, ReadByte, h0, skipPadding_of_ne hff]

/-- The segment length the scanner computes from a segment's two length bytes. -/
theorem infoSegment_length (next : jpegHandler → Option Result) (m hi lo : Byte)
    (heoi : m ≠ eoiMarker) (hrst : ¬ (rst0Marker ≤ m ∧ m ≤ rst7Marker))
    (s : List Byte) (re : ImageInfo) :
    infoSegment next { r := hi :: lo :: s, re := re } m =
      if 256 * hi.val + lo.val < 2 then some (re, some Err.shortSegmentLength) else
      if m = sof0Marker ∨ m = sof1Marker ∨ m = sof2Marker then
        match ReadFull 5 s with
        | Except.error e => some (re, some e)
        | Except.ok (buf5, _) =>
          if buf5.getD 0 0 ≠ 8 then some (re, some Err.onlyEightBit)
          else
            some ({ re with
                    Size := { Width := uint32 (256 * (buf5.getD 3 0).val + (buf5.getD 4 0).val),
                              Height := uint32 (256 * (buf5.getD 1 0).val + (buf5.getD 2 0).val) } },
                  none)
      else if m = app1Marker then
        match jpegHandler.readExif { r := s, re := re } (256 * hi.val + lo.val - 2) with
        | (h1, some _) => some (h1.re, none)
        | (h1, none) => next h1
      else if m = sosMarker then some (re, some Err.reachedSos)
      else
        match Discard (256 * hi.val + lo.val - 2) s with
        | Except.error e => some (re, some e)
        | Except.ok r5 => next { r := r5, re := re } := by
  have e1 : ReadFull 2 (hi :: lo :: s) = Except.ok ([hi, lo], s) := ReadFull_append [hi, lo] s
  have e2 : ((((256 * hi.val + lo.val : Nat) : Int) - 2).toNat) = 256 * hi.val + lo.val - 2 := by
    omega
  have e3 : ((((256 * hi.val + lo.val : Nat) : Int) - 2) < 0) ↔ 256 * hi.val + lo.val < 2 := by
    omega
  unfold infoSegment
  simp only [heoi, hrst, if_false, e1, List.getD_cons_zero, List.getD_cons_succ, shift8, e2, e3]

/-- The scanner passes over a complete segment with a passed-over marker code. -/
theorem loop_skipped (g : Segment) (hg : g.skipped) (rest : List Byte) (re : ImageInfo) :
    jpegHandler.loop { r := g.bytes ++ rest, re := re } =
      jpegHandler.loop { r := rest, re := re } := by
  obtain ⟨hm, hlen, hpay⟩ := hg
  obtain ⟨h0, hff, heoi, hrst, hsof, happ, hsos⟩ := skippedMarker_facts _ hm
  unfold Segment.length at hlen hpay
  rw [loop_eq]
  show infoStep _ { r := 0xff :: g.marker :: g.lenHi :: g.lenLo :: (g.payload ++ rest), re := re } = _
  rw [infoStep_marker _ _ h0 hff, infoSegment_length _ _ _ _ heoi hrst]
  have hd : Discard (256 * g.lenHi.val + g.lenLo.val - 2) (g.payload ++ rest) = Except.ok rest := by
    rw [← hpay]; simp [Discard]
  simp only [hsof, happ, hsos, if_false, hd]
  rw [if_neg (by omega)]

/-- The scanner passes over any number of such segments. -/
theorem loop_segments (gs : List Segment) (hgs : ∀ g ∈ gs, g.skipped) (rest : List Byte)
    (re : ImageInfo) :
    jpegHandler.loop { r := segmentsBytes gs ++ rest, re := re } =
      jpegHandler.loop { r := rest, re := re } := by
  induction gs with
  | nil => rfl
  | cons g gs ih =>
    have hg : g.skipped := hgs g (List.mem_cons_self _ _)
    have hrest : ∀ x ∈ gs, x.skipped := fun x hx => hgs x (List.mem_cons_of_mem _ hx)
    show jpegHandler.loop { r := (g.bytes ++ segmentsBytes gs) ++ rest, re := re } = _
    rw [List.append_assoc, loop_skipped g hg, ih hrest]

/-- At a start-of-frame segment with precision 8 the scanner returns the size. -/
theorem loop_sof (m lhi llo hhi hlo whi wlo : Byte) (hm : sofMarker m)
    (hlen : 2 ≤ 256 * lhi.val + llo.val) (rest : List Byte) (re : ImageInfo) :
    jpegHandler.loop { r := 0xff :: m :: lhi :: llo :: 0x08 :: hhi :: hlo :: whi :: wlo :: rest,
                       re := re } =
      some ({ re with Size := { Width := 256 * whi.val + wlo.val,
                                Height := 256 * hhi.val + hlo.val } }, none) := by
  obtain ⟨h0, hff, heoi, hrst, hsof⟩ := sofMarker_facts _ hm
  rw [loop_eq, infoStep_marker _ _ h0 hff, infoSegment_length _ _ _ _ heoi hrst]
  have e5 : ReadFull 5 (0x08 :: hhi :: hlo :: whi :: wlo :: rest) =
      Except.ok ([0x08, hhi, hlo, whi, wlo], rest) := ReadFull_append [0x08, hhi, hlo, whi, wlo] rest
  have w : uint32 (256 * whi.val + wlo.val) = 256 * whi.val + wlo.val := by
    unfold uint32; omega
  have hh : uint32 (256 * hhi.val + hlo.val) = 256 * hhi.val + hlo.val := by
    unfold uint32; omega
  rw [if_neg (by omega), if_pos hsof]
  simp only [e5, List.getD_cons_zero, List.getD_cons_succ, w, hh]
  simp

/-- On a stream that starts with the JPEG signature, `Detect` is the scanner started on
what follows, with `Type` set to JPEG and everything else at its zero value. -/
theorem Detect_jpeg (s : List Byte) :
    Detect (0xff :: 0xd8 :: s) =
      jpegHandler.loop { r := s, re := { ImageInfo.zero with Typ := ImageType.JPEG } } := by
  have e : detectTypeHandler (0xff :: 0xd8 :: s) =
      Except.ok (typeHandler.jpeg { r := [], re := ImageInfo.zero }, s) := by
    simp [detectTypeHandler, ReadFull]
  simp only [Detect, e, typeHandler.Info, Info_eq_loop]

/-- C1: on a stream made of the signature `0xFF 0xD8`, zero or more complete segments with
passed-over marker codes, and a start-of-frame segment (`0xC0`, `0xC1` or `0xC2`, length at
least 2) with precision 8, followed by any bytes, `Detect` returns a nil error and an
`ImageInfo` with Type JPEG, the frame header's big-endian width and height, Rotation 0 and
the zero Mirror. -/
theorem Detect_frame_after_skipped (gs : List Segment) (hgs : ∀ g ∈ gs, g.skipped)
    (m lhi llo hhi hlo whi wlo : Byte) (hm : sofMarker m)
    (hlen : 2 ≤ 256 * lhi.val + llo.val) (trailing : List Byte) :
    Detect ([0xff, 0xd8] ++ segmentsBytes gs ++
        [0xff, m, lhi, llo, 0x08, hhi, hlo, whi, wlo] ++ trailing) =
      some ({ Size := { Width := 256 * whi.val + wlo.val, Height := 256 * hhi.val + hlo.val },
              Typ := ImageType.JPEG, Rotation := 0, Mirror := MirrorDirection.zero }, none) := by
  have e : [0xff, 0xd8] ++ segmentsBytes gs ++
        [0xff, m, lhi, llo, 0x08, hhi, hlo, whi, wlo] ++ trailing =
      0xff :: 0xd8 :: (segmentsBytes gs ++
        (0xff :: m :: lhi :: llo :: 0x08 :: hhi :: hlo :: whi :: wlo :: trailing)) := by
    simp
  rw [e, Detect_jpeg, loop_segments gs hgs, loop_sof m lhi llo hhi hlo whi wlo hm hlen]
  rfl

/-- C1 at a concrete stream: a comment segment and a quantisation-table segment, then a
baseline frame header of height 100 and width 200, then two more bytes. -/
theorem Detect_frame_after_skipped_witness :
    (∀ g ∈ [Segment.mk 0xfe 0x00 0x04 [0x41, 0xff], Segment.mk 0xdb 0x00 0x02 []], g.skipped) ∧
    sofMarker 0xc0 ∧ 2 ≤ 256 * (0x00 : Byte).val + (0x11 : Byte).val ∧
    Detect ([0xff, 0xd8] ++
        segmentsBytes [Segment.mk 0xfe 0x00 0x04 [0x41, 0xff], Segment.mk 0xdb 0x00 0x02 []] ++
        [0xff, 0xc0, 0x00, 0x11, 0x08, 0x00, 0x64, 0x00, 0xc8] ++ [0x03, 0x01]) =
      some ({ Size := { Width := 256 * (0x00 : Byte).val + (0xc8 : Byte).val,
                        Height := 256 * (0x00 : Byte).val + (0x64 : Byte).val },
              Typ := ImageType.JPEG, Rotation := 0, Mirror := MirrorDirection.zero }, none) :=
  ⟨by decide, by decide, by decide,
   Detect_frame_after_skipped _ (by decide) 0xc0 0x00 0x11 0x00 0x64 0x00 0xc8 (by decide)
     (by decide) [0x03, 0x01]⟩

theorem CopyN_append (pre rest : List Byte) (n : Nat) (hn : pre.length = n) :
    CopyN (pre ++ rest) n = Except.ok rest := by
  subst hn; simp [CopyN]

theorem binaryReadUint16_cons (o : ByteOrder) (b0 b1 : Byte) (r : List Byte) :
    binaryReadUint16 o (b0 :: b1 :: r) = Except.ok (o.Uint16 b0 b1, r) := by
  have e : ReadFull 2 (b0 :: b1 :: r) = Except.ok ([b0, b1], r) := ReadFull_append [b0, b1] r
  simp [binaryReadUint16, e]

theorem binaryReadUint32_cons (o : ByteOrder) (b0 b1 b2 b3 : Byte) (r : List Byte) :
    binaryReadUint32 o (b0 :: b1 :: b2 :: b3 :: r) = Except.ok (o.Uint32 b0 b1 b2 b3, r) := by
  have e : ReadFull 4 (b0 :: b1 :: b2 :: b3 :: r) = Except.ok ([b0, b1, b2, b3], r) :=
    ReadFull_append [b0, b1, b2, b3] r
  simp [binaryReadUint32, e]

/-- The tag loop walks past entries with other tags and applies the orientation entry. -/
theorem findOrientation_entries (o : ByteOrder) (es : List DirEntry)
    (hes : ∀ e ∈ es, e.other o) (n : Nat) (hn : es.length < n) (t0 t1 v0 v1 : Byte)
    (ht : o.Uint16 t0 t1 = 0x0112) (six : List Byte) (hsix : six.length = 6)
    (hv : 1 ≤ o.Uint16 v0 v1 ∧ o.Uint16 v0 v1 ≤ 8) (tail : List Byte) (re : ImageInfo) :
    findOrientation o n (entriesBytes es ++ (t0 :: t1 :: (six ++ (v0 :: v1 :: tail)))) re =
      (orientationSwitch (o.Uint16 v0 v1) re, none) := by
  induction es generalizing n with
  | nil =>
    obtain ⟨k, rfl⟩ : ∃ k, n = k + 1 := ⟨n - 1, by simp at hn; omega⟩
    show findOrientation o (k + 1) (t0 :: t1 :: (six ++ (v0 :: v1 :: tail))) re = _
    unfold findOrientation
    simp only [binaryReadUint16_cons, ht, orientationTag, ne_eq, not_true_eq_false, if_false,
      CopyN_append six _ 6 hsix]
    rw [if_neg (by omega)]
  | cons e es ih =>
    obtain ⟨k, rfl⟩ : ∃ k, n = k + 1 := ⟨n - 1, by simp at hn; omega⟩
    have he : e.other o := hes e (List.mem_cons_self _ _)
    have hrest : ∀ x ∈ es, x.other o := fun x hx => hes x (List.mem_cons_of_mem _ hx)
    have e1 : entriesBytes (e :: es) ++ (t0 :: t1 :: (six ++ (v0 :: v1 :: tail))) =
        e.id0 :: e.id1 :: (e.body ++ (entriesBytes es ++
          (t0 :: t1 :: (six ++ (v0 :: v1 :: tail))))) := by
      simp [entriesBytes, DirEntry.bytes]
    rw [e1]
    unfold findOrientation
    simp only [binaryReadUint16_cons, orientationTag, ne_eq, he.1, not_false_eq_true, if_true,
      CopyN_append e.body _ 10 he.2]
    exact ih hrest k (by simp at hn; omega)

theorem exifHeader_read (r : List Byte) :
    binaryReadUint32 ByteOrder.BigEndian (0x45 :: 0x78 :: 0x69 :: 0x66 :: r) =
      Except.ok (exifHeader, r) := by
  rw [binaryReadUint32_cons]; rfl

theorem mark_read (o : ByteOrder) (r : List Byte) :
    binaryReadUint16 ByteOrder.BigEndian (o.mark ++ r) =
      Except.ok ((match o with
        | ByteOrder.BigEndian => byteOrderBE
        | ByteOrder.LittleEndian => byteOrderLE), r) := by
  cases o <;> (simp only [ByteOrder.mark, List.cons_append, List.nil_append,
    binaryReadUint16_cons]; rfl)

/-- On a well-formed payload with an orientation value in 1..8, the EXIF reader applies
that value to the record and returns nil. -/
theorem readExifBuffer_oriented (p : OrientedExif) (hp : p.wellFormed)
    (hv : 1 ≤ p.value ∧ p.value ≤ 8) (re : ImageInfo) :
    readExifBuffer p.bytes re = (orientationSwitch p.value re, none) := by
  obtain ⟨hoff, hfill, hcnt, hes, htag, hsix⟩ := hp
  have e : p.bytes = 0x45 :: 0x78 :: 0x69 :: 0x66 :: ([p.pad0, p.pad1] ++ (p.order.mark ++
      ([p.magic0, p.magic1] ++ (p.off0 :: p.off1 :: p.off2 :: p.off3 :: (p.filler ++
        (p.cnt0 :: p.cnt1 :: (entriesBytes p.entries ++
          (p.tag0 :: p.tag1 :: (p.six ++ (p.val0 :: p.val1 :: p.tail)))))))))) := by
    simp [OrientedExif.bytes]
  have hbo : (if (match p.order with
        | ByteOrder.BigEndian => byteOrderBE
        | ByteOrder.LittleEndian => byteOrderLE) = byteOrderBE then some ByteOrder.BigEndian
      else if (match p.order with
        | ByteOrder.BigEndian => byteOrderBE
        | ByteOrder.LittleEndian => byteOrderLE) = byteOrderLE then some ByteOrder.LittleEndian
      else none) = some p.order := by
    cases p.order <;> decide
  rw [e]
  unfold readExifBuffer
  simp only [exifHeader_read, ne_eq, not_true_eq_false, if_false,
    CopyN_append [p.pad0, p.pad1] _ 2 rfl, mark_read, hbo,
    CopyN_append [p.magic0, p.magic1] _ 2 rfl]
  simp only [binaryReadUint32_cons]
  unfold OrientedExif.offset at hoff hfill
  rw [if_neg (by omega)]
  simp only [CopyN_append p.filler _ _ hfill, binaryReadUint16_cons]
  exact findOrientation_entries p.order p.entries hes _ hcnt p.tag0 p.tag1 p.val0 p.val1 htag
    p.six hsix hv p.tail re

/-- An iteration of the scanner at an APP1 segment: the payload goes to `readExif`; the scan
goes on when that returns nil and stops with a nil error when it returns an error. -/
theorem loop_app1 (lhi llo : Byte) (hlen : 2 ≤ 256 * lhi.val + llo.val) (s : List Byte)
    (re : ImageInfo) :
    jpegHandler.loop { r := 0xff :: 0xe1 :: lhi :: llo :: s, re := re } =
      match jpegHandler.readExif { r := s, re := re } (256 * lhi.val + llo.val - 2) with
      | (h1, some _) => some (h1.re, none)
      | (h1, none) => h1.loop := by
  rw [loop_eq, infoStep_marker _ _ (by decide) (by decide),
    infoSegment_length _ _ _ _ (by decide) (by decide)]
  rw [if_neg (by omega), if_neg (by decide), if_pos (by decide)]

/-- What `readExif` does when the payload is wholly in the stream. -/
theorem readExif_append (payload rest : List Byte) (re : ImageInfo) :
    jpegHandler.readExif { r := payload ++ rest, re := re } payload.length =
      ({ r := rest, re := (readExifBuffer payload re).1 }, (readExifBuffer payload re).2) := by
  simp [jpegHandler.readExif, ReadFull_append]

theorem orientationSwitch_table (v : Nat) (hv : 1 ≤ v ∧ v ≤ 8) (re : ImageInfo)
    (hrot : re.Rotation = 0) (hmir : re.Mirror = MirrorDirection.MirrorNone) :
    orientationSwitch v re =
      { re with Rotation := (orientationTable v).1, Mirror := (orientationTable v).2 } := by
  obtain ⟨h1, h8⟩ := hv
  cases re
  simp only at hrot hmir
  subst hrot hmir
  interval_cases v <;> rfl

/-- C2: for either byte order, every orientation value 1..8, every directory offset of at
least 8 and every number of preceding entries with other tags, on a JPEG stream whose APP1
segment holds such a payload and is followed by a start-of-frame segment with precision 8,
`Detect` returns a nil error, the frame header's width and height, and the rotation and
mirror that the table of the specification gives for the value. -/
theorem Detect_exif_orientation (p : OrientedExif) (hp : p.wellFormed)
    (hv : 1 ≤ p.value ∧ p.value ≤ 8) (ahi alo : Byte)
    (halen : 256 * ahi.val + alo.val = p.bytes.length + 2)
    (m lhi llo hhi hlo whi wlo : Byte) (hm : sofMarker m)
    (hlen : 2 ≤ 256 * lhi.val + llo.val) (trailing : List Byte) :
    Detect ([0xff, 0xd8] ++ [0xff, 0xe1, ahi, alo] ++ p.bytes ++
        [0xff, m, lhi, llo, 0x08, hhi, hlo, whi, wlo] ++ trailing) =
      some ({ Size := { Width := 256 * whi.val + wlo.val, Height := 256 * hhi.val + hlo.val },
              Typ := ImageType.JPEG, Rotation := (orientationTable p.value).1,
              Mirror := (orientationTable p.value).2 }, none) := by
  have e : [0xff, 0xd8] ++ [0xff, 0xe1, ahi, alo] ++ p.bytes ++
        [0xff, m, lhi, llo, 0x08, hhi, hlo, whi, wlo] ++ trailing =
      0xff :: 0xd8 :: 0xff :: 0xe1 :: ahi :: alo :: (p.bytes ++
        (0xff :: m :: lhi :: llo :: 0x08 :: hhi :: hlo :: whi :: wlo :: trailing)) := by
    simp
  have en : 256 * ahi.val + alo.val - 2 = p.bytes.length := by omega
  rw [e, Detect_jpeg, loop_app1 ahi alo (by omega), en, readExif_append,
    readExifBuffer_oriented p hp hv]
  simp only []
  rw [loop_sof m lhi llo hhi hlo whi wlo hm hlen,
    orientationSwitch_table p.value hv _ rfl rfl]

/-- C2 at a concrete stream: the sample payload (little-endian, offset 10, one entry before
the orientation entry, value 6) in an APP1 segment of length 44, then a baseline frame
header of height 100 and width 200: rotation 90, no mirror. -/
theorem Detect_exif_orientation_witness :
    sampleExif.wellFormed ∧ (1 ≤ sampleExif.value ∧ sampleExif.value ≤ 8) ∧
    256 * (0x00 : Byte).val + (0x2c : Byte).val = sampleExif.bytes.length + 2 ∧
    sofMarker 0xc0 ∧ 2 ≤ 256 * (0x00 : Byte).val + (0x11 : Byte).val ∧
    Detect ([0xff, 0xd8] ++ [0xff, 0xe1, 0x00, 0x2c] ++ sampleExif.bytes ++
        [0xff, 0xc0, 0x00, 0x11, 0x08, 0x00, 0x64, 0x00, 0xc8] ++ [0x03]) =
      some ({ Size := { Width := 256 * (0x00 : Byte).val + (0xc8 : Byte).val,
                        Height := 256 * (0x00 : Byte).val + (0x64 : Byte).val },
              Typ := ImageType.JPEG, Rotation := (orientationTable sampleExif.value).1,
              Mirror := (orientationTable sampleExif.value).2 }, none) :=
  ⟨by decide, by decide, by decide, by decide, by decide,
   Detect_exif_orientation sampleExif (by decide) (by decide) 0x00 0x2c (by decide)
     0xc0 0x00 0x11 0x00 0x64 0x00 0xc8 (by decide) (by decide) [0x03]⟩

/-- C3: an APP1 segment of length 6 whose payload `01 02 03 04` does not start with `Exif`,
followed by a baseline frame header of height 100 and width 200.  `readExif` returns the
not-EXIF error and `Info` returns at once with a nil error: the frame header is never
reached and Size stays `{0, 0}`. -/
theorem Detect_app1_not_exif_returns_early :
    Detect [0xff, 0xd8, 0xff, 0xe1, 0x00, 0x06, 0x01, 0x02, 0x03, 0x04,
            0xff, 0xc0, 0x00, 0x11, 0x08, 0x00, 0x64, 0x00, 0xc8, 0x03] =
      some ({ Size := { Width := 0, Height := 0 }, Typ := ImageType.JPEG, Rotation := 0,
              Mirror := MirrorDirection.zero }, none) ∧
    readExifBuffer [0x01, 0x02, 0x03, 0x04] ImageInfo.zero =
      (ImageInfo.zero, some Err.errNotExif) := by
  decide

/-- C6: three malformed EXIF payloads as the first segment, each followed by a baseline
frame header of height 100 and width 200: byte-order mark `XX`; directory offset 7;
orientation value 9.  `readExif` returns the error in each case, and `Detect` returns a
nil error with Size `{0, 0}`. -/
theorem Detect_malformed_exif_nil_error :
    (readExifBuffer [0x45, 0x78, 0x69, 0x66, 0x00, 0x00, 0x58, 0x58] ImageInfo.zero =
        (ImageInfo.zero, some Err.invalidByteOrder) ∧
     Detect [0xff, 0xd8, 0xff, 0xe1, 0x00, 0x0a, 0x45, 0x78, 0x69, 0x66, 0x00, 0x00, 0x58, 0x58,
             0xff, 0xc0, 0x00, 0x11, 0x08, 0x00, 0x64, 0x00, 0xc8] =
       some ({ Size := { Width := 0, Height := 0 }, Typ := ImageType.JPEG, Rotation := 0,
               Mirror := MirrorDirection.zero }, none)) ∧
    (readExifBuffer [0x45, 0x78, 0x69, 0x66, 0x00, 0x00, 0x4d, 0x4d, 0x00, 0x2a,
                     0x00, 0x00, 0x00, 0x07] ImageInfo.zero =
        (ImageInfo.zero, some Err.invalidExifOffset) ∧
     Detect [0xff, 0xd8, 0xff, 0xe1, 0x00, 0x10, 0x45, 0x78, 0x69, 0x66, 0x00, 0x00, 0x4d, 0x4d,
             0x00, 0x2a, 0x00, 0x00, 0x00, 0x07,
             0xff, 0xc0, 0x00, 0x11, 0x08, 0x00, 0x64, 0x00, 0xc8] =
       some ({ Size := { Width := 0, Height := 0 }, Typ := ImageType.JPEG, Rotation := 0,
               Mirror := MirrorDirection.zero }, none)) ∧
    (readExifBuffer [0x45, 0x78, 0x69, 0x66, 0x00, 0x00, 0x4d, 0x4d, 0x00, 0x2a,
                     0x00, 0x00, 0x00, 0x08, 0x00, 0x01, 0x01, 0x12, 0x00, 0x03,
                     0x00, 0x00, 0x00, 0x01, 0x00, 0x09, 0x00, 0x00] ImageInfo.zero =
        (ImageInfo.zero, some Err.invalidOrientationTag) ∧
     Detect [0xff, 0xd8, 0xff, 0xe1, 0x00, 0x1e, 0x45, 0x78, 0x69, 0x66, 0x00, 0x00, 0x4d, 0x4d,
             0x00, 0x2a, 0x00, 0x00, 0x00, 0x08, 0x00, 0x01, 0x01, 0x12, 0x00, 0x03,
             0x00, 0x00, 0x00, 0x01, 0x00, 0x09, 0x00, 0x00,
             0xff, 0xc0, 0x00, 0x11, 0x08, 0x00, 0x64, 0x00, 0xc8] =
       some ({ Size := { Width := 0, Height := 0 }, Typ := ImageType.JPEG, Rotation := 0,
               Mirror := MirrorDirection.zero }, none)) := by
  decide

/-- C7: a stream that ends inside an APP1 payload (the segment declares 14 payload bytes,
2 are there).  The `io.ReadFull` of `readExif` fails with `io.ErrUnexpectedEOF`, and
`Detect` returns a nil error. -/
theorem Detect_truncated_app1_nil_error :
    jpegHandler.readExif { r := [0x45, 0x78], re := ImageInfo.zero } 14 =
      ({ r := [], re := ImageInfo.zero }, some Err.ErrUnexpectedEOF) ∧
    Detect [0xff, 0xd8, 0xff, 0xe1, 0x00, 0x10, 0x45, 0x78] =
      some ({ Size := { Width := 0, Height := 0 }, Typ := ImageType.JPEG, Rotation := 0,
              Mirror := MirrorDirection.zero }, none) := by
  decide

/-- C4: on every stream that starts with the JPEG signature `0xFF 0xD8`, whatever the
parsers and whatever follows, `FastImage.DetectInfo` and `FastImage.Detect` fail with the
"Unknown image type" error and leave Type and Size at their zero values: the `switch` of
`detectInternal` has no case for `0xFF`. -/
theorem FastImage_jpeg_is_unknown (d : decoder) (rest : List Byte) :
    FastImage.DetectInfo d (0xff :: 0xd8 :: rest) =
      (ImageInfo.zero, some (Err.UnknownImageTypeTb 0xff 0xd8)) ∧
    FastImage.Detect d (0xff :: 0xd8 :: rest) =
      (ImageType.zero, { Width := 0, Height := 0 }, some (Err.UnknownImageTypeTb 0xff 0xd8)) := by
  constructor <;>
    simp [FastImage.DetectInfo, FastImage.Detect, FastImage.detectInternal, xbufferReadAt0,
      detectSwitch, ImageInfo.zero]

/-- The six signatures that `detectInternal` does dispatch on: the type is set, the
format's parser is run on the stream and its size and error are passed on. -/
theorem FastImage_other_signatures (d : decoder) (minimal : Bool) (rest : List Byte) :
    FastImage.detectInternal d minimal (0x42 :: 0x4d :: rest) =
      ({ ImageInfo.zero with Typ := ImageType.BMP,
                             Size := (d.getBMPImageSize minimal (0x42 :: 0x4d :: rest)).1 },
        (d.getBMPImageSize minimal (0x42 :: 0x4d :: rest)).2) ∧
    FastImage.detectInternal d minimal (0x47 :: 0x49 :: rest) =
      ({ ImageInfo.zero with Typ := ImageType.GIF,
                             Size := (d.getGIFImageSize minimal (0x47 :: 0x49 :: rest)).1 },
        (d.getGIFImageSize minimal (0x47 :: 0x49 :: rest)).2) ∧
    FastImage.detectInternal d minimal (0x89 :: 0x50 :: rest) =
      ({ ImageInfo.zero with Typ := ImageType.PNG,
                             Size := (d.getPNGImageSize minimal (0x89 :: 0x50 :: rest)).1 },
        (d.getPNGImageSize minimal (0x89 :: 0x50 :: rest)).2) ∧
    FastImage.detectInternal d minimal (0x49 :: 0x49 :: rest) =
      ({ ImageInfo.zero with Typ := ImageType.TIFF,
                             Size := (d.getTIFFImageSize minimal (0x49 :: 0x49 :: rest)).1 },
        (d.getTIFFImageSize minimal (0x49 :: 0x49 :: rest)).2) ∧
    FastImage.detectInternal d minimal (0x4d :: 0x4d :: rest) =
      ({ ImageInfo.zero with Typ := ImageType.TIFF,
                             Size := (d.getTIFFImageSize minimal (0x4d :: 0x4d :: rest)).1 },
        (d.getTIFFImageSize minimal (0x4d :: 0x4d :: rest)).2) ∧
    FastImage.detectInternal d minimal (0x52 :: 0x49 :: rest) =
      ({ ImageInfo.zero with Typ := ImageType.WEBP,
                             Size := (d.getWEBPImageSize minimal (0x52 :: 0x49 :: rest)).1 },
        (d.getWEBPImageSize minimal (0x52 :: 0x49 :: rest)).2) := by
  refine ⟨?_, ?_, ?_, ?_, ?_, ?_⟩ <;>
    simp [FastImage.detectInternal, xbufferReadAt0, detectSwitch]

/-- C5: on the header of a 640 x 480 bitmap, `bmpHandler.Info` takes Width from bytes 0..3
and Height from bytes 4..7 of the stream it is given (the file size and the reserved
field), whatever `readUint32` is; read as little-endian that is `{921654, 0}`, while the
values stored at bytes 16..19 and 20..23 are 640 and 480. -/
theorem bmpHandler_Info_reads_offset_zero :
    (∀ readUint32 : List Byte → Nat,
      bmpHandler.Info readUint32 sampleBmpHeader =
        ({ ImageInfo.zero with
           Size := { Width := uint32 (readUint32 [0x36, 0x10, 0x0e, 0x00]),
                     Height := uint32 (readUint32 [0x00, 0x00, 0x00, 0x00]) } }, none)) ∧
    (bmpHandler.Info readUint32LE sampleBmpHeader).1.Size = { Width := 921654, Height := 0 } ∧
    readUint32LE ((sampleBmpHeader.drop 16).take 4) = 640 ∧
    readUint32LE ((sampleBmpHeader.drop 20).take 4) = 480 := by
  refine ⟨fun _ => rfl, ?_, ?_, ?_⟩ <;> decide

/-- C8 as stated fails at the prefix `BM`: `detectTypeHandler` neither returns a handler nor
fails with the unknown-image-type error; it fails with the not-implemented error. -/
theorem detectTypeHandler_BM_third_outcome :
    detectTypeHandler [0x42, 0x4d] = Except.error Err.notImplemented ∧
    ¬ ((∃ t r, detectTypeHandler [0x42, 0x4d] = Except.ok (t, r)) ∨
       detectTypeHandler [0x42, 0x4d] = Except.error Err.unknownImageType) := by
  have e : detectTypeHandler [0x42, 0x4d] = Except.error Err.notImplemented := rfl
  refine ⟨e, ?_⟩
  rw [e]
  simp

/-- C8, amended: on every stream with two bytes `detectTypeHandler` has one of three
outcomes, decided by the signature tests alone: the JPEG handler (and the stream after the
two bytes) when the prefix passes the JPEG test, the not-implemented error when it passes
the test of BMP, GIF, PNG, TIFF or WEBP, the unknown-image-type error when it passes none;
and no prefix passes the tests of two formats. -/
theorem detectTypeHandler_outcomes (b0 b1 : Byte) (rest : List Byte) :
    (matchedFormats b0 b1).length ≤ 1 ∧
    detectTypeHandler (b0 :: b1 :: rest) =
      match matchedFormats b0 b1 with
      | [] => Except.error Err.unknownImageType
      | ImageType.JPEG :: _ =>
        Except.ok (typeHandler.jpeg { r := [], re := ImageInfo.zero }, rest)
      | _ :: _ => Except.error Err.notImplemented := by
  have e : ReadFull 2 (b0 :: b1 :: rest) = Except.ok ([b0, b1], rest) :=
    ReadFull_append [b0, b1] rest
  simp only [detectTypeHandler, e, List.getD_cons_zero, List.getD_cons_succ, matchedFormats,
    signatureTest]
  by_cases h1 : b0 = 0x42
  · subst h1
    by_cases h2 : b1 = 0x4d
    · subst h2; simp
    · simp [h2]
  by_cases h3 : b0 = 0x47
  · subst h3
    by_cases h4 : b1 = 0x49
    · subst h4; simp
    · simp [h4]
  by_cases h5 : b0 = 0xff
  · subst h5
    by_cases h6 : b1 = 0xd8
    · subst h6; simp
    · simp [h6]
  by_cases h7 : b0 = 0x89
  · subst h7
    by_cases h8 : b1 = 0x50
    · subst h8; simp
    · simp [h8]
  by_cases h9 : b0 = 0x49
  · subst h9
    by_cases h10 : b1 = 0x49
    · subst h10; simp
    · simp [h10]
  by_cases h11 : b0 = 0x4d
  · subst h11
    by_cases h12 : b1 = 0x4d
    · subst h12; simp
    · simp [h12]
  by_cases h13 : b0 = 0x52
  · subst h13
    by_cases h14 : b1 = 0x49
    · subst h14; simp
    · simp [h14]
  simp [h1, h3, h5, h7, h9, h11, h13]

/-- At a start-of-frame segment whose precision byte is not 8 the scanner returns an error
and leaves the record as it was: the unsupported-precision error when the five bytes of
the frame header are there, `io.ErrUnexpectedEOF` when the stream ends inside them. -/
theorem loop_sof_precision (m lhi llo p : Byte) (hm : sofMarker m)
    (hlen : 2 ≤ 256 * lhi.val + llo.val) (hp : p ≠ 8) (rest : List Byte) (re : ImageInfo) :
    jpegHandler.loop { r := 0xff :: m :: lhi :: llo :: p :: rest, re := re } =
      some (re, some (if 4 ≤ rest.length then Err.onlyEightBit else Err.ErrUnexpectedEOF)) := by
  obtain ⟨h0, hff, heoi, hrst, hsof⟩ := sofMarker_facts _ hm
  rw [loop_eq, infoStep_marker _ _ h0 hff, infoSegment_length _ _ _ _ heoi hrst]
  rw [if_neg (by omega), if_pos hsof]
  by_cases h4 : 4 ≤ rest.length
  · have e5 : ReadFull 5 (p :: rest) = Except.ok (p :: rest.take 4, rest.drop 4) := by
      simp [ReadFull, h4]
    simp [e5, hp, h4]
  · have e5 : ReadFull 5 (p :: rest) = Except.error Err.ErrUnexpectedEOF := by
      simp [ReadFull, h4]
    simp [e5, h4]

/-- C9: on a stream made of the signature, zero or more complete segments with passed-over
marker codes, and a start-of-frame segment (`0xC0`, `0xC1` or `0xC2`, length at least 2)
whose first payload byte is not 8, `Detect` returns a non-nil error and a record whose Size
is `{0, 0}`, whatever follows that byte. -/
theorem Detect_precision_not_8 (gs : List Segment) (hgs : ∀ g ∈ gs, g.skipped)
    (m lhi llo p : Byte) (hm : sofMarker m) (hlen : 2 ≤ 256 * lhi.val + llo.val)
    (hp : p ≠ 8) (rest : List Byte) :
    ∃ e : Err,
      Detect ([0xff, 0xd8] ++ segmentsBytes gs ++ [0xff, m, lhi, llo, p] ++ rest) =
        some ({ Size := { Width := 0, Height := 0 }, Typ := ImageType.JPEG, Rotation := 0,
                Mirror := MirrorDirection.zero }, some e) := by
  have e : [0xff, 0xd8] ++ segmentsBytes gs ++ [0xff, m, lhi, llo, p] ++ rest =
      0xff :: 0xd8 :: (segmentsBytes gs ++ (0xff :: m :: lhi :: llo :: p :: rest)) := by
    simp
  rw [e, Detect_jpeg, loop_segments gs hgs, loop_sof_precision m lhi llo p hm hlen hp]
  exact ⟨_, rfl⟩

/-- C9 at a concrete stream: a comment segment, then a baseline frame header that declares
12-bit precision. -/
theorem Detect_precision_not_8_witness :
    (∀ g ∈ [Segment.mk 0xfe 0x00 0x03 [0x41]], g.skipped) ∧ sofMarker 0xc0 ∧
    2 ≤ 256 * (0x00 : Byte).val + (0x11 : Byte).val ∧ (0x0c : Byte) ≠ 8 ∧
    ∃ e : Err,
      Detect ([0xff, 0xd8] ++ segmentsBytes [Segment.mk 0xfe 0x00 0x03 [0x41]] ++
          [0xff, 0xc0, 0x00, 0x11, 0x0c] ++ [0x00, 0x64, 0x00, 0xc8, 0x03]) =
        some ({ Size := { Width := 0, Height := 0 }, Typ := ImageType.JPEG, Rotation := 0,
                Mirror := MirrorDirection.zero }, some e) :=
  ⟨by decide, by decide, by decide, by decide,
   Detect_precision_not_8 _ (by decide) 0xc0 0x00 0x11 0x0c (by decide) (by decide) (by decide)
     [0x00, 0x64, 0x00, 0xc8, 0x03]⟩

/-- At the end-of-image marker the scanner returns the end-of-image error. -/
theorem loop_eoi (rest : List Byte) (re : ImageInfo) :
    jpegHandler.loop { r := 0xff :: 0xd9 :: rest, re := re } = some (re, some Err.endOfImage) := by
  rw [loop_eq, infoStep_marker _ _ (by decide) (by decide)]
  simp [infoSegment, eoiMarker]

/-- At a start-of-scan marker the scanner returns an error: the read error when the two
length bytes are not there, the short-segment error when the length is below 2, the
start-of-scan error otherwise. -/
theorem loop_sos (rest : List Byte) (re : ImageInfo) :
    ∃ e : Err, jpegHandler.loop { r := 0xff :: 0xda :: rest, re := re } = some (re, some e) := by
  rw [loop_eq, infoStep_marker _ _ (by decide) (by decide)]
  match rest with
  | [] =>
    exact ⟨Err.EOF, by simp [infoSegment, ReadFull, eoiMarker, rst0Marker, rst7Marker]⟩
  | [a] =>
    exact ⟨Err.ErrUnexpectedEOF,
      by simp [infoSegment, ReadFull, eoiMarker, rst0Marker, rst7Marker]⟩
  | hi :: lo :: s =>
    rw [infoSegment_length _ _ _ _ (by decide) (by decide)]
    by_cases hl : 256 * hi.val + lo.val < 2
    · exact ⟨Err.shortSegmentLength, by rw [if_pos hl]⟩
    · refine ⟨Err.reachedSos, ?_⟩
      rw [if_neg hl, if_neg (by decide), if_neg (by decide), if_pos (by decide)]

/-- C10: on a stream made of the signature, zero or more complete segments with
passed-over marker codes, and then the end-of-image marker `0xFF 0xD9` or a start-of-scan
marker `0xFF 0xDA`, `Detect` returns a non-nil error and a record whose Size is `{0, 0}`,
whatever bytes follow. -/
theorem Detect_eoi_or_sos_before_frame (gs : List Segment) (hgs : ∀ g ∈ gs, g.skipped)
    (m : Byte) (hm : m = 0xd9 ∨ m = 0xda) (rest : List Byte) :
    ∃ e : Err,
      Detect ([0xff, 0xd8] ++ segmentsBytes gs ++ [0xff, m] ++ rest) =
        some ({ Size := { Width := 0, Height := 0 }, Typ := ImageType.JPEG, Rotation := 0,
                Mirror := MirrorDirection.zero }, some e) := by
  have e : [0xff, 0xd8] ++ segmentsBytes gs ++ [0xff, m] ++ rest =
      0xff :: 0xd8 :: (segmentsBytes gs ++ (0xff :: m :: rest)) := by
    simp
  rw [e, Detect_jpeg, loop_segments gs hgs]
  rcases hm with rfl | rfl
  · exact ⟨Err.endOfImage, loop_eoi rest _⟩
  · obtain ⟨e1, he1⟩ := loop_sos rest { ImageInfo.zero with Typ := ImageType.JPEG }
    exact ⟨e1, he1⟩

/-- C10 at a concrete stream: a comment segment, a start-of-scan segment, and then a
well-formed frame header that is never reached. -/
theorem Detect_eoi_or_sos_before_frame_witness :
    (∀ g ∈ [Segment.mk 0xfe 0x00 0x03 [0x41]], g.skipped) ∧
    ((0xda : Byte) = 0xd9 ∨ (0xda : Byte) = 0xda) ∧
    ∃ e : Err,
      Detect ([0xff, 0xd8] ++ segmentsBytes [Segment.mk 0xfe 0x00 0x03 [0x41]] ++ [0xff, 0xda] ++
          [0x00, 0x02, 0xff, 0xc0, 0x00, 0x11, 0x08, 0x00, 0x64, 0x00, 0xc8]) =
        some ({ Size := { Width := 0, Height := 0 }, Typ := ImageType.JPEG, Rotation := 0,
                Mirror := MirrorDirection.zero }, some e) :=
  ⟨by decide, by decide,
   Detect_eoi_or_sos_before_frame _ (by decide) 0xda (by decide)
     [0x00, 0x02, 0xff, 0xc0, 0x00, 0x11, 0x08, 0x00, 0x64, 0x00, 0xc8]⟩

/-- The tag loop runs through a complete directory without an orientation entry and changes
nothing. -/
theorem findOrientation_none (o : ByteOrder) (es : List DirEntry)
    (hes : ∀ e ∈ es, e.other o) (tail : List Byte) (re : ImageInfo) :
    findOrientation o es.length (entriesBytes es ++ tail) re = (re, none) := by
  induction es with
  | nil => rfl
  | cons e es ih =>
    have he : e.other o := hes e (List.mem_cons_self _ _)
    have hrest : ∀ x ∈ es, x.other o := fun x hx => hes x (List.mem_cons_of_mem _ hx)
    have e1 : entriesBytes (e :: es) ++ tail =
        e.id0 :: e.id1 :: (e.body ++ (entriesBytes es ++ tail)) := by
      simp [entriesBytes, DirEntry.bytes]
    rw [e1, List.length_cons]
    unfold findOrientation
    simp only [binaryReadUint16_cons, orientationTag, ne_eq, he.1, not_false_eq_true, if_true,
      CopyN_append e.body _ 10 he.2]
    exact ih hrest

/-- On a well-formed payload without an orientation entry the EXIF reader returns nil and
the record as it was. -/
theorem readExifBuffer_plain (p : PlainExif) (hp : p.wellFormed) (re : ImageInfo) :
    readExifBuffer p.bytes re = (re, none) := by
  obtain ⟨hoff, hfill, hcnt, hes⟩ := hp
  have e : p.bytes = 0x45 :: 0x78 :: 0x69 :: 0x66 :: ([p.pad0, p.pad1] ++ (p.order.mark ++
      ([p.magic0, p.magic1] ++ (p.off0 :: p.off1 :: p.off2 :: p.off3 :: (p.filler ++
        (p.cnt0 :: p.cnt1 :: (entriesBytes p.entries ++ p.tail))))))) := by
    simp [PlainExif.bytes]
  have hbo : (if (match p.order with
        | ByteOrder.BigEndian => byteOrderBE
        | ByteOrder.LittleEndian => byteOrderLE) = byteOrderBE then some ByteOrder.BigEndian
      else if (match p.order with
        | ByteOrder.BigEndian => byteOrderBE
        | ByteOrder.LittleEndian => byteOrderLE) = byteOrderLE then some ByteOrder.LittleEndian
      else none) = some p.order := by
    cases p.order <;> decide
  rw [e]
  unfold readExifBuffer
  simp only [exifHeader_read, ne_eq, not_true_eq_false, if_false,
    CopyN_append [p.pad0, p.pad1] _ 2 rfl, mark_read, hbo,
    CopyN_append [p.magic0, p.magic1] _ 2 rfl]
  simp only [binaryReadUint32_cons]
  unfold PlainExif.offset at hoff hfill
  unfold PlainExif.count at hcnt
  rw [if_neg (by omega)]
  simp only [CopyN_append p.filler _ _ hfill, binaryReadUint16_cons, hcnt]
  exact findOrientation_none p.order p.entries hes p.tail re

/-- C11: for a well-formed EXIF payload (byte order `II` or `MM`, offset at least 8, a
complete directory of entries none of which has tag `0x0112`), `readExif` returns nil and
leaves the record, Rotation and Mirror included, as it was; and on a JPEG stream whose
APP1 segment holds that payload, followed by a start-of-frame segment with precision 8,
`Detect` returns a nil error with Rotation 0, the zero Mirror and the frame header's width
and height. -/
theorem Detect_exif_without_orientation (p : PlainExif) (hp : p.wellFormed) (ahi alo : Byte)
    (halen : 256 * ahi.val + alo.val = p.bytes.length + 2)
    (m lhi llo hhi hlo whi wlo : Byte) (hm : sofMarker m)
    (hlen : 2 ≤ 256 * lhi.val + llo.val) (trailing : List Byte) :
    (∀ (rest : List Byte) (re : ImageInfo),
      jpegHandler.readExif { r := p.bytes ++ rest, re := re } p.bytes.length =
        ({ r := rest, re := re }, none)) ∧
    Detect ([0xff, 0xd8] ++ [0xff, 0xe1, ahi, alo] ++ p.bytes ++
        [0xff, m, lhi, llo, 0x08, hhi, hlo, whi, wlo] ++ trailing) =
      some ({ Size := { Width := 256 * whi.val + wlo.val, Height := 256 * hhi.val + hlo.val },
              Typ := ImageType.JPEG, Rotation := 0, Mirror := MirrorDirection.zero }, none) := by
  have hre : ∀ (rest : List Byte) (re : ImageInfo),
      jpegHandler.readExif { r := p.bytes ++ rest, re := re } p.bytes.length =
        ({ r := rest, re := re }, none) := by
    intro rest re
    rw [readExif_append, readExifBuffer_plain p hp]
  refine ⟨hre, ?_⟩
  have e : [0xff, 0xd8] ++ [0xff, 0xe1, ahi, alo] ++ p.bytes ++
        [0xff, m, lhi, llo, 0x08, hhi, hlo, whi, wlo] ++ trailing =
      0xff :: 0xd8 :: 0xff :: 0xe1 :: ahi :: alo :: (p.bytes ++
        (0xff :: m :: lhi :: llo :: 0x08 :: hhi :: hlo :: whi :: wlo :: trailing)) := by
    simp
  have en : 256 * ahi.val + alo.val - 2 = p.bytes.length := by omega
  rw [e, Detect_jpeg, loop_app1 ahi alo (by omega), en, hre]
  simp only []
  rw [loop_sof m lhi llo hhi hlo whi wlo hm hlen]
  rfl

/-- C11 at a concrete stream: the sample payload (big-endian, two entries with tags
`0x010F` and `0x0110`) in an APP1 segment of length 46, then a progressive frame header of
height 100 and width 200. -/
theorem Detect_exif_without_orientation_witness :
    samplePlainExif.wellFormed ∧
    256 * (0x00 : Byte).val + (0x2e : Byte).val = samplePlainExif.bytes.length + 2 ∧
    sofMarker 0xc2 ∧ 2 ≤ 256 * (0x00 : Byte).val + (0x11 : Byte).val ∧
    ((∀ (rest : List Byte) (re : ImageInfo),
      jpegHandler.readExif { r := samplePlainExif.bytes ++ rest, re := re }
          samplePlainExif.bytes.length = ({ r := rest, re := re }, none)) ∧
    Detect ([0xff, 0xd8] ++ [0xff, 0xe1, 0x00, 0x2e] ++ samplePlainExif.bytes ++
        [0xff, 0xc2, 0x00, 0x11, 0x08, 0x00, 0x64, 0x00, 0xc8] ++ [0x03]) =
      some ({ Size := { Width := 256 * (0x00 : Byte).val + (0xc8 : Byte).val,
                        Height := 256 * (0x00 : Byte).val + (0x64 : Byte).val },
              Typ := ImageType.JPEG, Rotation := 0, Mirror := MirrorDirection.zero }, none)) :=
  ⟨by decide, by decide, by decide, by decide,
   Detect_exif_without_orientation samplePlainExif (by decide) 0x00 0x2e (by decide)
     0xc2 0x00 0x11 0x00 0x64 0x00 0xc8 (by decide) (by decide) [0x03]⟩

/-- C12: for every two-byte prefix that passes none of the signature tests, both entry
points fail with their unknown-format error and a zero-valued result: the package-level
`Detect` returns the "unknown image type" error with a zero `ImageInfo`, and, whatever the
parsers are, `FastImage.DetectInfo` and `FastImage.Detect` return the "Unknown image type"
error carrying the two bytes, with Type and Size at their zero values. -/
theorem unknown_prefix_fails (b0 b1 : Byte) (hnone : matchedFormats b0 b1 = [])
    (rest : List Byte) :
    Detect (b0 :: b1 :: rest) = some (ImageInfo.zero, some Err.unknownImageType) ∧
    (∀ d : decoder,
      FastImage.DetectInfo d (b0 :: b1 :: rest) =
        (ImageInfo.zero, some (Err.UnknownImageTypeTb b0 b1)) ∧
      FastImage.Detect d (b0 :: b1 :: rest) =
        (ImageType.zero, { Width := 0, Height := 0 },
          some (Err.UnknownImageTypeTb b0 b1))) := by
  have hsig : ¬ (b0 = 0x42 ∧ b1 = 0x4d) ∧ ¬ (b0 = 0x47 ∧ b1 = 0x49) ∧
      ¬ (b0 = 0x89 ∧ b1 = 0x50) ∧ ¬ (b0 = 0x49 ∧ b1 = 0x49) ∧ ¬ (b0 = 0x4d ∧ b1 = 0x4d) ∧
      ¬ (b0 = 0x52 ∧ b1 = 0x49) ∧ ¬ (b0 = 0xff ∧ b1 = 0xd8) := by
    refine ⟨?_, ?_, ?_, ?_, ?_, ?_, ?_⟩ <;>
      (rintro ⟨rfl, rfl⟩; revert hnone; decide)
  obtain ⟨s1, s2, s3, s4, s5, s6, s7⟩ := hsig
  have e2 : ReadFull 2 (b0 :: b1 :: rest) = Except.ok ([b0, b1], rest) :=
    ReadFull_append [b0, b1] rest
  have hout : detectTypeHandler (b0 :: b1 :: rest) = Except.error Err.unknownImageType := by
    simp only [detectTypeHandler, e2, List.getD_cons_zero, List.getD_cons_succ]
    rw [if_neg s1, if_neg s2, if_neg s7, if_neg s3, if_neg (not_or.mpr ⟨s4, s5⟩), if_neg s6]
  have hsw : ∀ (d : decoder) (minimal : Bool) (reader : List Byte),
      detectSwitch d minimal reader b0 b1 = (ImageInfo.zero, none, false) := by
    intro d minimal reader
    unfold detectSwitch
    by_cases h1 : b0 = 0x42
    · have : ¬ b1 = 0x4d := fun h => s1 ⟨h1, h⟩
      simp [h1, this]
    by_cases h2 : b0 = 0x47
    · have : ¬ b1 = 0x49 := fun h => s2 ⟨h2, h⟩
      simp [h2, this]
    by_cases h3 : b0 = 0x89
    · have : ¬ b1 = 0x50 := fun h => s3 ⟨h3, h⟩
      simp [h3, this]
    by_cases h4 : b0 = 0x49
    · have : ¬ b1 = 0x49 := fun h => s4 ⟨h4, h⟩
      simp [h4, this]
    by_cases h5 : b0 = 0x4d
    · have : ¬ b1 = 0x4d := fun h => s5 ⟨h5, h⟩
      simp [h5, this]
    by_cases h6 : b0 = 0x52
    · have : ¬ b1 = 0x49 := fun h => s6 ⟨h6, h⟩
      simp [h6, this]
    simp [h1, h2, h3, h4, h5, h6]
  have hint : ∀ (d : decoder) (minimal : Bool),
      FastImage.detectInternal d minimal (b0 :: b1 :: rest) =
        (ImageInfo.zero, some (Err.UnknownImageTypeTb b0 b1)) := by
    intro d minimal
    simp [FastImage.detectInternal, xbufferReadAt0, hsw]
  refine ⟨?_, fun d => ⟨hint d false, ?_⟩⟩
  · simp only [Detect, hout]
  · simp only [FastImage.Detect, hint]
    rfl

/-- C12 at the prefix `0x00 0x00`. -/
theorem unknown_prefix_fails_witness :
    matchedFormats 0x00 0x00 = [] ∧
    (Detect (0x00 :: 0x00 :: [0x01, 0x02]) = some (ImageInfo.zero, some Err.unknownImageType) ∧
    (∀ d : decoder,
      FastImage.DetectInfo d (0x00 :: 0x00 :: [0x01, 0x02]) =
        (ImageInfo.zero, some (Err.UnknownImageTypeTb 0x00 0x00)) ∧
      FastImage.Detect d (0x00 :: 0x00 :: [0x01, 0x02]) =
        (ImageType.zero, { Width := 0, Height := 0 },
          some (Err.UnknownImageTypeTb 0x00 0x00)))) :=
  ⟨by decide, unknown_prefix_fails 0x00 0x00 (by decide) [0x01, 0x02]⟩

/-- C13: for every marker code that carries a length (any byte other than `0x00`, `0xFF`,
`0xD0`-`0xD7` and `0xD9`) `Info` reads the two bytes after it as a big-endian length `L`.
When `L` is 0 or 1 it fails with the short-segment-length error, whatever follows, and the
record keeps its Size; otherwise the remaining payload length it works with is `L - 2`, at
most 65533: that many bytes go to `readExif` for APP1 and are discarded for a marker code
without a case of its own (start-of-frame and start-of-scan do not use it). -/
theorem Info_segment_length (m hi lo : Byte) (h0 : m ≠ 0x00) (hff : m ≠ 0xff)
    (hrst : ¬ (0xd0 ≤ m ∧ m ≤ 0xd7)) (heoi : m ≠ 0xd9) (h : jpegHandler) (s : List Byte) :
    256 * hi.val + lo.val - 2 ≤ 65533 ∧
    h.Info (0xff :: m :: hi :: lo :: s) =
      if 256 * hi.val + lo.val < 2 then
        some ({ h.re with Typ := ImageType.JPEG }, some Err.shortSegmentLength)
      else if m = sof0Marker ∨ m = sof1Marker ∨ m = sof2Marker then
        match ReadFull 5 s with
        | Except.error e => some ({ h.re with Typ := ImageType.JPEG }, some e)
        | Except.ok (buf5, _) =>
          if buf5.getD 0 0 ≠ 8 then
            some ({ h.re with Typ := ImageType.JPEG }, some Err.onlyEightBit)
          else
            some ({ h.re with
                    Typ := ImageType.JPEG,
                    Size := { Width := uint32 (256 * (buf5.getD 3 0).val + (buf5.getD 4 0).val),
                              Height := uint32 (256 * (buf5.getD 1 0).val + (buf5.getD 2 0).val) } },
                  none)
      else if m = app1Marker then
        match jpegHandler.readExif { r := s, re := { h.re with Typ := ImageType.JPEG } }
            (256 * hi.val + lo.val - 2) with
        | (h1, some _) => some (h1.re, none)
        | (h1, none) => h1.loop
      else if m = sosMarker then
        some ({ h.re with Typ := ImageType.JPEG }, some Err.reachedSos)
      else
        match Discard (256 * hi.val + lo.val - 2) s with
        | Except.error e => some ({ h.re with Typ := ImageType.JPEG }, some e)
        | Except.ok r5 => jpegHandler.loop { r := r5, re := { h.re with Typ := ImageType.JPEG } } := by
  refine ⟨by omega, ?_⟩
  rw [Info_eq_loop, loop_eq, infoStep_marker _ _ h0 hff,
    infoSegment_length _ _ _ _ heoi hrst]

/-- C13 at a concrete stream: a comment marker with declared length 1, followed by a
well-formed frame header that is never read. -/
theorem Info_segment_length_witness :
    (0xfe : Byte) ≠ 0x00 ∧ (0xfe : Byte) ≠ 0xff ∧
    ¬ ((0xd0 : Byte) ≤ 0xfe ∧ (0xfe : Byte) ≤ 0xd7) ∧ (0xfe : Byte) ≠ 0xd9 ∧
    jpegHandler.Info { r := [], re := ImageInfo.zero }
        (0xff :: 0xfe :: 0x00 :: 0x01 ::
          [0xff, 0xc0, 0x00, 0x11, 0x08, 0x00, 0x64, 0x00, 0xc8]) =
      some ({ ImageInfo.zero with Typ := ImageType.JPEG }, some Err.shortSegmentLength) :=
  ⟨by decide, by decide, by decide, by decide,
   (Info_segment_length 0xfe 0x00 0x01 (by decide) (by decide) (by decide) (by decide)
     { r := [], re := ImageInfo.zero }
     [0xff, 0xc0, 0x00, 0x11, 0x08, 0x00, 0x64, 0x00, 0xc8]).2.trans (by decide)⟩

/-- The padding loop reads through a run of `0xFF` and stops at the byte after it. -/
theorem skipPadding_run (j : Nat) (b : Byte) (hb : b ≠ 0xff) (t : List Byte) :
    skipPadding 0xff (List.replicate j 0xff ++ b :: t) = some (b, t) := by
  induction j with
  | zero =>
    show skipPadding 0xff (b :: t) = some (b, t)
    unfold skipPadding
    rw [if_pos rfl, skipPadding_of_ne hb]
  | succ j ih =>
    show skipPadding 0xff (0xff :: (List.replicate j 0xff ++ b :: t)) = some (b, t)
    unfold skipPadding
    rw [if_pos rfl]
    exact ih

/-- The padding loop never hands on `0xFF` as the marker code. -/
theorem skipPadding_ne_ff (m : Byte) (s r : List Byte) : skipPadding m s ≠ some (0xff, r) := by
  induction s generalizing m with
  | nil =>
    unfold skipPadding
    by_cases hm : m = 0xff
    · simp [hm]
    · simp only [if_neg hm]
      intro h
      cases h
      exact hm rfl
  | cons b s ih =>
    unfold skipPadding
    by_cases hm : m = 0xff
    · rw [if_pos hm]; exact ih b
    · rw [if_neg hm]
      intro h
      injection h with h
      injection h with h1 h2
      exact hm h1

/-- After a run of two or more `0xFF` the byte that ends the run is the marker code,
whatever it is. -/
theorem infoStep_run (next : jpegHandler → Option Result) (j : Nat) (b : Byte) (hb : b ≠ 0xff)
    (t : List Byte) (re : ImageInfo) :
    infoStep next { r := 0xff :: 0xff :: (List.replicate j 0xff ++ b :: t), re := re } =
      infoSegment next { r := t, re := re } b := by
  simp [infoStep, ReadBytes, ReadByte, skipPadding_run j b hb t]

/-- C14 as stated fails on a run of two `0xFF` ended by `0x00`: the `0x00` is taken as the
marker code and the next two bytes `00 00` are read as its length, so `Info` fails with
the short-segment-length error; resuming the scan after the `0x00` would reach the frame
header, as it does for a single `0xFF`. -/
theorem Info_ff_ff_00_reads_length :
    jpegHandler.Info { r := [], re := ImageInfo.zero }
        [0xff, 0xff, 0x00, 0x00, 0x00, 0xff, 0xc0, 0x00, 0x11, 0x08, 0x00, 0x64, 0x00, 0xc8] =
      some ({ ImageInfo.zero with Typ := ImageType.JPEG }, some Err.shortSegmentLength) ∧
    jpegHandler.Info { r := [], re := ImageInfo.zero }
        [0xff, 0x00, 0x00, 0x00, 0xff, 0xc0, 0x00, 0x11, 0x08, 0x00, 0x64, 0x00, 0xc8] =
      some ({ ImageInfo.zero with Typ := ImageType.JPEG,
                                  Size := { Width := 200, Height := 100 } }, none) ∧
    jpegHandler.Info { r := [], re := ImageInfo.zero }
        [0xff, 0xff, 0x00, 0x00, 0x00, 0xff, 0xc0, 0x00, 0x11, 0x08, 0x00, 0x64, 0x00, 0xc8] ≠
      jpegHandler.Info { r := [], re := ImageInfo.zero }
        [0x00, 0x00, 0xff, 0xc0, 0x00, 0x11, 0x08, 0x00, 0x64, 0x00, 0xc8] := by
  decide

/-- C14, amended: the scanner never takes `0xFF` as a marker code, and a `0x00` that
directly follows the `0xFF` at which discarding stopped is not one either: no length is
read for it and the scan resumes after it.  A `0x00` that ends a run of two or more `0xFF`
is taken as the marker code: the two bytes after it are read as its length `L`, with the
short-segment-length error for `L < 2` and `L - 2` bytes discarded otherwise. -/
theorem Info_zero_after_ff (h : jpegHandler) (t : List Byte) :
    (∀ (m : Byte) (s r : List Byte), skipPadding m s ≠ some (0xff, r)) ∧
    h.Info (0xff :: 0x00 :: t) = h.Info t ∧
    (∀ (j : Nat) (hi lo : Byte) (s : List Byte),
      h.Info (0xff :: 0xff :: (List.replicate j 0xff ++ 0x00 :: hi :: lo :: s)) =
        if 256 * hi.val + lo.val < 2 then
          some ({ h.re with Typ := ImageType.JPEG }, some Err.shortSegmentLength)
        else
          match Discard (256 * hi.val + lo.val - 2) s with
          | Except.error e => some ({ h.re with Typ := ImageType.JPEG }, some e)
          | Except.ok r5 =>
            jpegHandler.loop { r := r5, re := { h.re with Typ := ImageType.JPEG } }) := by
  refine ⟨skipPadding_ne_ff, ?_, ?_⟩
  · rw [Info_eq_loop, Info_eq_loop, loop_eq]
    simp [infoStep, ReadBytes, ReadByte]
  · intro j hi lo s
    rw [Info_eq_loop, loop_eq, infoStep_run _ j 0x00 (by decide),
      infoSegment_length _ _ _ _ (by decide) (by decide)]
    by_cases hl : 256 * hi.val + lo.val < 2
    · rw [if_pos hl, if_pos hl]
    · rw [if_neg hl, if_neg hl, if_neg (by decide), if_neg (by decide), if_neg (by decide)]

/-- C15: runs of `0xFF` are collapsed: for every `k ≥ 1`, every byte `m` other than `0x00`
and `0xFF` and every tail `t`, `Info` on `k` copies of `0xFF`, then `m`, then `t` returns
what it returns on `0xFF`, `m`, `t`. -/
theorem Info_ff_run_collapsed (k : Nat) (hk : 1 ≤ k) (m : Byte) (h0 : m ≠ 0x00)
    (hff : m ≠ 0xff) (t : List Byte) (h : jpegHandler) :
    h.Info (List.replicate k 0xff ++ [m] ++ t) = h.Info ([0xff, m] ++ t) := by
  have e2 : h.Info ([0xff, m] ++ t) =
      infoSegment jpegHandler.loop { r := t, re := { h.re with Typ := ImageType.JPEG } } m := by
    show h.Info (0xff :: m :: t) = _
    rw [Info_eq_loop, loop_eq, infoStep_marker _ _ h0 hff]
  rw [e2]
  match k, hk with
  | 1, _ => exact e2
  | j + 2, _ =>
    have e : List.replicate (j + 2) (0xff : Byte) ++ [m] ++ t =
        0xff :: 0xff :: (List.replicate j 0xff ++ m :: t) := by
      simp [List.replicate_succ]
    rw [e, Info_eq_loop, loop_eq, infoStep_run _ j m hff]

/-- C15 at a concrete stream: three `0xFF` before the marker code of a frame header. -/
theorem Info_ff_run_collapsed_witness :
    1 ≤ 3 ∧ (0xc0 : Byte) ≠ 0x00 ∧ (0xc0 : Byte) ≠ 0xff ∧
    jpegHandler.Info { r := [], re := ImageInfo.zero }
        (List.replicate 3 0xff ++ [0xc0] ++ [0x00, 0x11, 0x08, 0x00, 0x64, 0x00, 0xc8]) =
      jpegHandler.Info { r := [], re := ImageInfo.zero }
        ([0xff, 0xc0] ++ [0x00, 0x11, 0x08, 0x00, 0x64, 0x00, 0xc8]) :=
  ⟨by decide, by decide, by decide,
   Info_ff_run_collapsed 3 (by decide) 0xc0 (by decide) (by decide)
     [0x00, 0x11, 0x08, 0x00, 0x64, 0x00, 0xc8] { r := [], re := ImageInfo.zero }⟩

/-- C16: restart markers carry no length: for every marker code `0xD0`..`0xD7` and every
tail `t`, `Info` on `0xFF`, the marker code, `t` returns what it returns on `t` alone. -/
theorem Info_restart_marker (m : Byte) (hm : 0xd0 ≤ m ∧ m ≤ 0xd7) (t : List Byte)
    (h : jpegHandler) :
    h.Info ([0xff, m] ++ t) = h.Info t := by
  have h0 : m ≠ 0 := by rintro rfl; revert hm; decide
  have hff : m ≠ 0xff := by rintro rfl; revert hm; decide
  have heoi : m ≠ eoiMarker := by rintro rfl; revert hm; decide
  show h.Info (0xff :: m :: t) = _
  rw [Info_eq_loop, Info_eq_loop, loop_eq, infoStep_marker _ _ h0 hff]
  have hm1 : rst0Marker ≤ m ∧ m ≤ rst7Marker := hm
  unfold infoSegment
  rw [if_neg heoi, if_pos hm1]

/-- C16 at a concrete stream: restart marker `0xD3` before bytes that would otherwise be
read as the length `00 00`. -/
theorem Info_restart_marker_witness :
    ((0xd0 : Byte) ≤ 0xd3 ∧ (0xd3 : Byte) ≤ 0xd7) ∧
    jpegHandler.Info { r := [], re := ImageInfo.zero }
        ([0xff, 0xd3] ++ [0x00, 0x00, 0xff, 0xc0, 0x00, 0x11, 0x08, 0x00, 0x64, 0x00, 0xc8]) =
      jpegHandler.Info { r := [], re := ImageInfo.zero }
        [0x00, 0x00, 0xff, 0xc0, 0x00, 0x11, 0x08, 0x00, 0x64, 0x00, 0xc8] :=
  ⟨by decide,
   Info_restart_marker 0xd3 (by decide) [0x00, 0x00, 0xff, 0xc0, 0x00, 0x11, 0x08, 0x00, 0x64,
     0x00, 0xc8] { r := [], re := ImageInfo.zero }⟩

theorem exifFrame_error (re : ImageInfo) (e : Option Err) : exifFrame re (re, e) :=
  ⟨rfl, rfl, Or.inr rfl⟩

theorem orientationSwitch_frame (val : Nat) (re : ImageInfo) :
    exifFrame re (orientationSwitch val re, none) := by
  refine ⟨?_, ?_, Or.inl rfl⟩ <;> (unfold orientationSwitch; split <;> rfl)

theorem findOrientation_frame (o : ByteOrder) (k : Nat) (r : List Byte) (re : ImageInfo) :
    exifFrame re (findOrientation o k r re) := by
  induction k generalizing r with
  | zero => exact exifFrame_error re none
  | succ k ih =>
    unfold findOrientation
    split
    · exact exifFrame_error re _
    · split
      · split
        · exact exifFrame_error re _
        · exact ih _
      · split
        · exact exifFrame_error re _
        · split
          · exact exifFrame_error re _
          · split
            · exact exifFrame_error re _
            · exact orientationSwitch_frame _ re

theorem readExifBuffer_frame (buf : List Byte) (re : ImageInfo) :
    exifFrame re (readExifBuffer buf re) := by
  unfold readExifBuffer
  split
  · exact exifFrame_error re _
  · split
    · exact exifFrame_error re _
    · split
      · exact exifFrame_error re _
      · split
        · exact exifFrame_error re _
        · split
          · exact exifFrame_error re _
          · split
            · exact exifFrame_error re _
            · split
              · exact exifFrame_error re _
              · split
                · exact exifFrame_error re _
                · split
                  · exact exifFrame_error re _
                  · split
                    · exact exifFrame_error re _
                    · exact findOrientation_frame _ _ _ re

/-- The frame of `readExif`, for sharing: Type and Size stay, and the record stays whole
unless nil is returned. -/
theorem readExif_frame_aux (h : jpegHandler) (n : Nat) :
    exifFrame h.re ((h.readExif n).1.re, (h.readExif n).2) := by
  unfold jpegHandler.readExif
  split
  · exact exifFrame_error h.re _
  · exact readExifBuffer_frame _ h.re

/-- C18: `readExif` never changes Type or Size of the handler's record, for every stream
and every `n`; and whenever it returns a non-nil error the whole record, Rotation and
Mirror included, is as it was before the call (either the error is nil or the record is
unchanged). -/
theorem readExif_frame (h : jpegHandler) (n : Nat) :
    (h.readExif n).1.re.Typ = h.re.Typ ∧ (h.readExif n).1.re.Size = h.re.Size ∧
    ((h.readExif n).2 = none ∨ (h.readExif n).1.re = h.re) :=
  readExif_frame_aux h n

theorem ReadBytes_append_some {d : Byte} {s r : List Byte} (h : ReadBytes d s = some r)
    (t : List Byte) : ReadBytes d (s ++ t) = some (r ++ t) := by
  induction s with
  | nil => simp [ReadBytes] at h
  | cons b s ih =>
    rw [List.cons_append]
    unfold ReadBytes at h ⊢
    by_cases hb : b = d
    · rw [if_pos hb] at h ⊢
      cases h; rfl
    · rw [if_neg hb] at h ⊢
      exact ih h

theorem skipPadding_append_some {m m1 : Byte} {s r : List Byte}
    (h : skipPadding m s = some (m1, r)) (t : List Byte) :
    skipPadding m (s ++ t) = some (m1, r ++ t) := by
  induction s generalizing m with
  | nil =>
    unfold skipPadding at h
    by_cases hm : m = 0xff
    · rw [if_pos hm] at h; cases h
    · rw [if_neg hm] at h
      cases h
      exact skipPadding_of_ne hm _
  | cons b s ih =>
    rw [List.cons_append]
    unfold skipPadding at h ⊢
    by_cases hm : m = 0xff
    · rw [if_pos hm] at h ⊢
      exact ih h
    · rw [if_neg hm] at h ⊢
      cases h; rfl

theorem ReadFull_append_ok {n : Nat} {s buf r : List Byte}
    (h : ReadFull n s = Except.ok (buf, r)) (t : List Byte) :
    ReadFull n (s ++ t) = Except.ok (buf, r ++ t) := by
  obtain ⟨hn, hb, hr⟩ := ReadFull_ok h
  subst hb hr
  have hn1 : n ≤ (s ++ t).length := by rw [List.length_append]; omega
  unfold ReadFull
  rw [if_pos hn1, List.take_append_of_le_length hn, List.drop_append_of_le_length hn]

theorem Discard_append_ok {n : Nat} {s r : List Byte} (h : Discard n s = Except.ok r)
    (t : List Byte) : Discard n (s ++ t) = Except.ok (r ++ t) := by
  obtain ⟨hn, hr⟩ := Discard_ok h
  subst hr
  have hn1 : n ≤ (s ++ t).length := by rw [List.length_append]; omega
  unfold Discard
  rw [if_pos hn1, List.drop_append_of_le_length hn]

/-- When `readExif` returns nil it has read its payload, and it does the same when more
bytes follow the stream. -/
theorem readExif_append_none {s : List Byte} {re : ImageInfo} {n : Nat} {h1 : jpegHandler}
    (h : jpegHandler.readExif { r := s, re := re } n = (h1, none)) (t : List Byte) :
    jpegHandler.readExif { r := s ++ t, re := re } n = ({ h1 with r := h1.r ++ t }, none) := by
  unfold jpegHandler.readExif at h ⊢
  cases hr : ReadFull n s with
  | error e => simp [hr] at h
  | ok p =>
    obtain ⟨buf, r1⟩ := p
    simp only [hr, ReadFull_append_ok hr t] at h ⊢
    have h1r : h1 = { r := r1, re := (readExifBuffer buf re).1 } := (congrArg Prod.fst h).symm
    have h2 : (readExifBuffer buf re).2 = none := congrArg Prod.snd h
    rw [h1r, h2]

/-- The second half of an iteration and more bytes after the stream: either it returns a
result of its own, the same with the longer stream when that result is a nil error with a
new Size; or it goes round again, the same way with the longer stream, Size unchanged. -/
theorem infoSegment_stable (s : List Byte) (re : ImageInfo) (marker : Byte) (t : List Byte) :
    (∃ res : Result, (∀ next, infoSegment next { r := s, re := re } marker = some res) ∧
      (res.2 = none → res.1.Size ≠ re.Size →
        ∀ next, infoSegment next { r := s ++ t, re := re } marker = some res)) ∨
    (∃ h1 : jpegHandler, h1.r.length ≤ s.length ∧ h1.re.Size = re.Size ∧
      ∀ next, infoSegment next { r := s, re := re } marker = next h1 ∧
        infoSegment next { r := s ++ t, re := re } marker = next { h1 with r := h1.r ++ t }) := by
  by_cases heoi : marker = eoiMarker
  · exact Or.inl ⟨(re, some Err.endOfImage),
      fun next => by simp only [infoSegment, if_pos heoi], fun hn => by simp at hn⟩
  by_cases hrst : rst0Marker ≤ marker ∧ marker ≤ rst7Marker
  · exact Or.inr ⟨{ r := s, re := re }, Nat.le_refl _, rfl, fun next =>
      ⟨by simp only [infoSegment, if_neg heoi, if_pos hrst],
       by simp only [infoSegment, if_neg heoi, if_pos hrst]⟩⟩
  match s with
  | [] =>
    exact Or.inl ⟨(re, some Err.EOF),
      fun next => by simp [infoSegment, heoi, hrst, ReadFull], fun hn => by simp at hn⟩
  | [a] =>
    exact Or.inl ⟨(re, some Err.ErrUnexpectedEOF),
      fun next => by simp [infoSegment, heoi, hrst, ReadFull], fun hn => by simp at hn⟩
  | hi :: lo :: s =>
    simp only [List.cons_append, infoSegment_length _ _ _ _ heoi hrst]
    by_cases hl : 256 * hi.val + lo.val < 2
    · exact Or.inl ⟨(re, some Err.shortSegmentLength),
        fun next => by rw [if_pos hl], fun hn => by simp at hn⟩
    simp only [if_neg hl]
    by_cases hsof : marker = sof0Marker ∨ marker = sof1Marker ∨ marker = sof2Marker
    · simp only [if_pos hsof]
      cases h5 : ReadFull 5 s with
      | error e => exact Or.inl ⟨(re, some e), fun _ => rfl, fun hn => by simp at hn⟩
      | ok p =>
        obtain ⟨buf5, r5⟩ := p
        simp only [ReadFull_append_ok h5 t]
        by_cases h8 : buf5.getD 0 0 ≠ 8
        · simp only [if_pos h8]
          exact Or.inl ⟨(re, some Err.onlyEightBit), fun _ => rfl, fun hn => by simp at hn⟩
        · simp only [if_neg h8]
          exact Or.inl ⟨_, fun _ => rfl, fun _ _ _ => rfl⟩
    simp only [if_neg hsof]
    by_cases happ : marker = app1Marker
    · simp only [if_pos happ]
      have hfr := readExif_frame_aux { r := s, re := re } (256 * hi.val + lo.val - 2)
      cases hx : jpegHandler.readExif { r := s, re := re } (256 * hi.val + lo.val - 2) with
      | mk h1 e =>
        rw [hx] at hfr
        cases e with
        | some e1 =>
          refine Or.inl ⟨(h1.re, none), fun _ => rfl, fun _ hne => ?_⟩
          exact absurd hfr.2.1 hne
        | none =>
          have hl1 := readExif_length { r := s, re := re } (256 * hi.val + lo.val - 2)
          rw [hx] at hl1
          simp only [readExif_append_none hx t]
          exact Or.inr ⟨h1, by simp at hl1 ⊢; omega, hfr.2.1, fun _ => ⟨rfl, rfl⟩⟩
    simp only [if_neg happ]
    by_cases hsos : marker = sosMarker
    · simp only [if_pos hsos]
      exact Or.inl ⟨(re, some Err.reachedSos), fun _ => rfl, fun hn => by simp at hn⟩
    simp only [if_neg hsos]
    cases hd : Discard (256 * hi.val + lo.val - 2) s with
    | error e => exact Or.inl ⟨(re, some e), fun _ => rfl, fun hn => by simp at hn⟩
    | ok r5 =>
      simp only [Discard_append_ok hd t]
      have l5 := Discard_ok hd
      exact Or.inr ⟨{ r := r5, re := re }, by simp [l5.2]; omega, rfl, fun _ => ⟨rfl, rfl⟩⟩

/-- One iteration and more bytes after the stream, as for `infoSegment_stable`; an
iteration that goes round again hands on a strictly shorter stream. -/
theorem infoStep_stable (s : List Byte) (re : ImageInfo) (t : List Byte) :
    (∃ res : Result, (∀ next, infoStep next { r := s, re := re } = some res) ∧
      (res.2 = none → res.1.Size ≠ re.Size →
        ∀ next, infoStep next { r := s ++ t, re := re } = some res)) ∨
    (∃ h1 : jpegHandler, h1.r.length < s.length ∧ h1.re.Size = re.Size ∧
      ∀ next, infoStep next { r := s, re := re } = next h1 ∧
        infoStep next { r := s ++ t, re := re } = next { h1 with r := h1.r ++ t }) := by
  cases h1 : ReadBytes 0xff s with
  | none =>
    exact Or.inl ⟨(re, some Err.EOF), fun next => by simp only [infoStep, h1],
      fun hn => by simp at hn⟩
  | some r1 =>
    have l1 := ReadBytes_length h1
    have h1t := ReadBytes_append_some h1 t
    match r1, h1, l1, h1t with
    | [], h1, _, _ =>
      exact Or.inl ⟨(re, some Err.EOF), fun next => by simp only [infoStep, h1, ReadByte],
        fun hn => by simp at hn⟩
    | marker0 :: r2, h1, l1, h1t =>
      rw [List.cons_append] at h1t
      by_cases hz : marker0 = 0
      · exact Or.inr ⟨{ r := r2, re := re }, by simp at l1 ⊢; omega, rfl, fun next =>
          ⟨by simp only [infoStep, h1, ReadByte, if_pos hz],
           by simp only [infoStep, h1t, ReadByte, if_pos hz]⟩⟩
      cases h3 : skipPadding marker0 r2 with
      | none =>
        exact Or.inl ⟨(re, some Err.EOF),
          fun next => by simp only [infoStep, h1, ReadByte, if_neg hz, h3],
          fun hn => by simp at hn⟩
      | some p =>
        obtain ⟨marker, r3⟩ := p
        have l3 := skipPadding_length h3
        have h3t := skipPadding_append_some h3 t
        have el : ∀ next, infoStep next { r := s, re := re } =
            infoSegment next { r := r3, re := re } marker :=
          fun next => by simp only [infoStep, h1, ReadByte, if_neg hz, h3]
        have er : ∀ next, infoStep next { r := s ++ t, re := re } =
            infoSegment next { r := r3 ++ t, re := re } marker :=
          fun next => by simp only [infoStep, h1t, ReadByte, if_neg hz, h3t]
        rcases infoSegment_stable r3 re marker t with ⟨res, hres, happ⟩ | ⟨h5, hle, hsz, hnext⟩
        · exact Or.inl ⟨res, fun next => (el next).trans (hres next),
            fun hn hne next => (er next).trans (happ hn hne next)⟩
        · exact Or.inr ⟨h5, by simp at l1; omega, hsz, fun next =>
            ⟨(el next).trans (hnext next).1, (er next).trans (hnext next).2⟩⟩

/-- A scan that ends with a nil error and a new Size ends the same way when more bytes
follow the stream. -/
theorem loop_stable (t : List Byte) (n : Nat) : ∀ (s : List Byte) (re info : ImageInfo),
    s.length ≤ n → jpegHandler.loop { r := s, re := re } = some (info, none) →
    info.Size ≠ re.Size → jpegHandler.loop { r := s ++ t, re := re } = some (info, none) := by
  induction n with
  | zero =>
    intro s re info hs hl hne
    rw [loop_eq] at hl ⊢
    rcases infoStep_stable s re t with ⟨res, hres, happ⟩ | ⟨h1, hlt, _, _⟩
    · rw [hres] at hl
      cases hl
      exact happ rfl hne _
    · omega
  | succ n ih =>
    intro s re info hs hl hne
    rw [loop_eq] at hl ⊢
    rcases infoStep_stable s re t with ⟨res, hres, happ⟩ | ⟨h1, hlt, hsz, hnext⟩
    · rw [hres] at hl
      cases hl
      exact happ rfl hne _
    · rw [(hnext _).1] at hl
      rw [(hnext _).2]
      exact ih h1.r h1.re info (by omega) hl (by rw [hsz]; exact hne)

/-- C17: the result depends only on the bytes up to the frame header: for every stream `s`
on which `Detect` returns a nil error and a Size whose width or height is non-zero, and for
every byte sequence `t`, `Detect` on `s ++ t` returns the same `ImageInfo` and a nil
error. -/
theorem Detect_append (s t : List Byte) (info : ImageInfo)
    (hd : Detect s = some (info, none))
    (hsz : info.Size.Width ≠ 0 ∨ info.Size.Height ≠ 0) :
    Detect (s ++ t) = some (info, none) := by
  match s, hd with
  | [], hd => simp [Detect, detectTypeHandler, ReadFull] at hd
  | [a], hd => simp [Detect, detectTypeHandler, ReadFull] at hd
  | b0 :: b1 :: s1, hd =>
    by_cases hj : b0 = 0xff ∧ b1 = 0xd8
    · obtain ⟨rfl, rfl⟩ := hj
      rw [Detect_jpeg] at hd
      show Detect (0xff :: 0xd8 :: (s1 ++ t)) = _
      rw [Detect_jpeg]
      refine loop_stable t s1.length s1 _ info (Nat.le_refl _) hd ?_
      intro hz
      have hz1 : info.Size = { Width := 0, Height := 0 } := hz
      rw [hz1] at hsz
      simp at hsz
    · exfalso
      have e2 : ReadFull 2 (b0 :: b1 :: s1) = Except.ok ([b0, b1], s1) :=
        ReadFull_append [b0, b1] s1
      simp only [Detect, detectTypeHandler, e2, List.getD_cons_zero, List.getD_cons_succ,
        if_neg hj] at hd
      split_ifs at hd <;> simp at hd

/-- C17 at a concrete stream: a frame header of height 100 and width 200, then three more
bytes appended. -/
theorem Detect_append_witness :
    Detect [0xff, 0xd8, 0xff, 0xc0, 0x00, 0x11, 0x08, 0x00, 0x64, 0x00, 0xc8] =
      some ({ Size := { Width := 200, Height := 100 }, Typ := ImageType.JPEG, Rotation := 0,
              Mirror := MirrorDirection.zero }, none) ∧
    ((200 : Nat) ≠ 0 ∨ (100 : Nat) ≠ 0) ∧
    Detect ([0xff, 0xd8, 0xff, 0xc0, 0x00, 0x11, 0x08, 0x00, 0x64, 0x00, 0xc8] ++
        [0xff, 0xd9, 0x00]) =
      some ({ Size := { Width := 200, Height := 100 }, Typ := ImageType.JPEG, Rotation := 0,
              Mirror := MirrorDirection.zero }, none) :=
  ⟨by decide, by decide,
   Detect_append [0xff, 0xd8, 0xff, 0xc0, 0x00, 0x11, 0x08, 0x00, 0x64, 0x00, 0xc8]
     [0xff, 0xd9, 0x00] _ (by decide) (by decide)⟩

/-- An iteration that goes round again has consumed at least two bytes: the `0xFF` and the
byte after it. -/
theorem infoStep_cases_two (h : jpegHandler) :
    (∃ res, ∀ next, infoStep next h = some res) ∨
    (∃ h1 : jpegHandler, h1.r.length + 2 ≤ h.r.length ∧ ∀ next, infoStep next h = next h1) := by
  unfold infoStep
  split
  · exact Or.inl ⟨_, fun _ => rfl⟩
  · rename_i r1 h1
    have l1 := ReadBytes_length h1
    split
    · exact Or.inl ⟨_, fun _ => rfl⟩
    · rename_i marker0 r2 h2
      have l2 : r2.length < r1.length := by
        cases r1 with
        | nil => simp [ReadByte] at h2
        | cons b t => simp [ReadByte] at h2; rw [← h2.2]; simp
      split
      · exact Or.inr ⟨_, by simp; omega, fun _ => rfl⟩
      · split
        · exact Or.inl ⟨_, fun _ => rfl⟩
        · rename_i marker r3 h3
          have l3 := skipPadding_length h3
          rcases infoSegment_cases { h with r := r3 } marker with ⟨res, hres⟩ | ⟨h5, hle, hnext⟩
          · exact Or.inl ⟨res, hres⟩
          · exact Or.inr ⟨h5, by simp at hle; omega, hnext⟩

theorem infoLoop_fuel_half (f1 f2 : Nat) (h : jpegHandler) (h1 : h.r.length < 2 * f1)
    (h2 : h.r.length < 2 * f2) : infoLoop f1 h = infoLoop f2 h := by
  induction f1 generalizing f2 h with
  | zero => omega
  | succ f1 ih =>
    cases f2 with
    | zero => omega
    | succ f2 =>
      show infoStep (infoLoop f1) h = infoStep (infoLoop f2) h
      rcases infoStep_cases_two h with ⟨res, hres⟩ | ⟨h1, hlt, hnext⟩
      · rw [hres, hres]
      · rw [hnext, hnext]
        exact ih f2 h1 (by omega) (by omega)

/-- C19: `Info` terminates on every finite stream.  It returns a result, and the loop
returns that result within any number of iterations above half the stream's length (so
within `length / 2 + 1` iterations, which is at most the length of a non-empty stream);
every iteration of the marker-scanning loop either returns or hands a strictly shorter
stream to the next one; and an iteration of the inner `0xFF`-skipping loop either consumes
one byte of the stream or returns, the stream being at its end. -/
theorem Info_terminates (h : jpegHandler) (r : List Byte) :
    (∃ res : Result, h.Info r = some res ∧
      ∀ fuel : Nat, r.length / 2 < fuel →
        infoLoop fuel { r := r, re := { h.re with Typ := ImageType.JPEG } } = some res) ∧
    (∀ h0 : jpegHandler, (∃ res, ∀ next, infoStep next h0 = some res) ∨
      (∃ h1 : jpegHandler, h1.r.length < h0.r.length ∧ ∀ next, infoStep next h0 = next h1)) ∧
    (∀ (b : Byte) (s : List Byte), skipPadding 0xff (b :: s) = skipPadding b s) ∧
    skipPadding 0xff [] = none := by
  refine ⟨?_, infoStep_cases, fun b s => ?_, ?_⟩
  · have hs := infoLoop_isSome (r.length + 1)
      { r := r, re := { h.re with Typ := ImageType.JPEG } } (Nat.lt_succ_self _)
    obtain ⟨res, hres⟩ := Option.isSome_iff_exists.mp hs
    refine ⟨res, hres, fun fuel hf => ?_⟩
    rw [← hres]
    exact infoLoop_fuel_half _ _ _ (by simp only; omega) (by simp only; omega)
  · show (if (0xff : Byte) = 0xff then skipPadding b s else some (0xff, b :: s)) = _
    rw [if_pos rfl]
  · rfl

/-- C19 at a concrete stream of 15 bytes, a comment segment and a frame header: the loop
returns the result of `Info` within 8 iterations, 8 being above half of 15. -/
theorem Info_terminates_witness :
    ∃ res : Result,
      jpegHandler.Info { r := [], re := ImageInfo.zero }
          [0xff, 0xfe, 0x00, 0x04, 0x41, 0x42,
           0xff, 0xc0, 0x00, 0x11, 0x08, 0x00, 0x64, 0x00, 0xc8] = some res ∧
      infoLoop 8 { r := [0xff, 0xfe, 0x00, 0x04, 0x41, 0x42,
                         0xff, 0xc0, 0x00, 0x11, 0x08, 0x00, 0x64, 0x00, 0xc8],
                   re := { ImageInfo.zero with Typ := ImageType.JPEG } } = some res :=
  let ⟨res, h1, h2⟩ := (Info_terminates { r := [], re := ImageInfo.zero }
    [0xff, 0xfe, 0x00, 0x04, 0x41, 0x42,
     0xff, 0xc0, 0x00, 0x11, 0x08, 0x00, 0x64, 0x00, 0xc8]).1
  ⟨res, h1, h2 8 (by decide)⟩

end fastsizer
